import Mathlib

/-!
Verification of the skycoach scraper / importer core
(`complete_code.py`, `overgear_scraper_selenium.py`, `scrapper_db.py`).

Python strings are embedded as Lean `String`, but every operation is
implemented structurally over the underlying character list so that all
definitions evaluate inside the kernel.  Python floats that carry parsed
decimal text are embedded as exact decimals (`Dec`, a mantissa/exponent
pair); currency amounts rounded to two decimal places ("%.2f") are embedded
as integer cents.
-/

/-- Characters of a string. -/
def chars (s : String) : List Char := s.data

/-- Rebuild a string from characters. -/
def ofChars (l : List Char) : String := ⟨l⟩

/-- Python `str.strip()` on a character list. -/
def pyStripL (l : List Char) : List Char :=
  ((l.dropWhile Char.isWhitespace).reverse.dropWhile Char.isWhitespace).reverse

/-- Python `str.strip()`. -/
def pyStrip (s : String) : String := ofChars (pyStripL s.data)

/-- Python `str.lower()` (ASCII case folding). -/
def pyLower (s : String) : String := ofChars (s.data.map Char.toLower)

/-- `isPrefixOfL p l` : the list `p` is an initial segment of `l`. -/
def isPrefixOfL : List Char → List Char → Bool
  | [], _ => true
  | _ :: _, [] => false
  | a :: as, b :: bs => a == b && isPrefixOfL as bs

/-- Python `str.startswith`. -/
def pyStartsWith (s p : String) : Bool := isPrefixOfL p.data s.data

/-- Python `str.endswith`. -/
def pyEndsWith (s p : String) : Bool := isPrefixOfL p.data.reverse s.data.reverse

/-- One pass of pattern replacement, fuel-indexed so that the recursion is
structural (the fuel is always at least the length of the scanned list, and
each step consumes at least one character when the pattern is nonempty). -/
def replFuel (pat rep : List Char) : Nat → List Char → List Char
  | 0, s => s
  | _ + 1, [] => []
  | fuel + 1, c :: rest =>
    if isPrefixOfL pat (c :: rest) then rep ++ replFuel pat rep fuel ((c :: rest).drop pat.length)
    else c :: replFuel pat rep fuel rest

/-- Python `str.replace(pat, rep)` (all occurrences; the scraper never calls
it with an empty pattern, for which we return the string unchanged). -/
def pyReplace (s pat rep : String) : String :=
  if pat.data = [] then s else ofChars (replFuel pat.data rep.data s.data.length s.data)

/-- Split a character list at every occurrence of `sep` (Python `str.split(sep)`
for a one-character separator). -/
def splitCharAux (sep : Char) : List Char → List Char → List (List Char)
  | [], acc => [acc.reverse]
  | c :: rest, acc =>
    if c == sep then acc.reverse :: splitCharAux sep rest [] else splitCharAux sep rest (c :: acc)

/-- Python `str.split("\n")` and friends, for a one-character separator. -/
def pySplitChar (sep : Char) (s : String) : List String :=
  (splitCharAux sep s.data []).map ofChars

/-- Python `s[:-n]`. -/
def pyDropRight (s : String) (n : Nat) : String := ofChars (s.data.take (s.data.length - n))

/-- Keep only the characters satisfying `p` (models `re.sub("[^...]", "", s)`). -/
def pyFilter (p : Char → Bool) (s : String) : String := ofChars (s.data.filter p)

/-- Python `c in s` for a single character. -/
def pyContains (s : String) (c : Char) : Bool := s.data.any (· == c)

/-- Collapse every run of whitespace to a single space (the `re.sub(r"\s+", " ", s)`
part of `clean_text`). -/
def squeezeWS : List Char → List Char
  | [] => []
  | [c] => [if c.isWhitespace then ' ' else c]
  | a :: b :: rest =>
    if a.isWhitespace && b.isWhitespace then squeezeWS (b :: rest)
    else (if a.isWhitespace then ' ' else a) :: squeezeWS (b :: rest)

/-- `clean_text` (complete_code.py): collapse whitespace runs to one space, then strip. -/
def clean_text (s : String) : String := ofChars (pyStripL (squeezeWS s.data))

/-- Numeric value of a digit list (most significant first). -/
def digitsVal (l : List Char) : Nat := l.foldl (fun n c => 10 * n + (c.toNat - 48)) 0

/-- An exact decimal number `m / 10 ^ e`: the embedding of a Python float that
was produced by parsing decimal text (the only floats the scraper creates). -/
structure Dec where
  m : Int
  e : Nat
deriving DecidableEq, Repr

/-- Rational value denoted by a `Dec`. -/
def Dec.val (d : Dec) : ℚ := (d.m : ℚ) / ((10 : ℚ) ^ d.e)

/-- Python `float(s)` on sign/digits/point strings, as an exact decimal.
Returns `none` where `float` raises `ValueError` (no digits, several points,
stray characters). Exponent notation never occurs in the scraped price texts
and is not modelled. -/
def pyFloat? (s : String) : Option Dec :=
  let t := pyStripL s.data
  let sgn : Bool × List Char :=
    match t with
    | '-' :: r => (true, r)
    | '+' :: r => (false, r)
    | r => (false, r)
  let signed : Nat → Int := fun n => if sgn.1 then -(n : Int) else (n : Int)
  match splitCharAux '.' sgn.2 [] with
  | [a] => if a ≠ [] ∧ a.all Char.isDigit then some ⟨signed (digitsVal a), 0⟩ else none
  | [a, b] =>
    if (a ≠ [] ∨ b ≠ []) ∧ a.all Char.isDigit ∧ b.all Char.isDigit then
      some ⟨signed (digitsVal a * 10 ^ b.length + digitsVal b), b.length⟩
    else none
  | _ => none

/-- Python `int(s)` on strings: optional sign, then digits only. -/
def pyInt? (s : String) : Option Int :=
  let t := pyStripL s.data
  match t with
  | '-' :: r => if r ≠ [] ∧ r.all Char.isDigit then some (-(digitsVal r : Int)) else none
  | '+' :: r => if r ≠ [] ∧ r.all Char.isDigit then some (digitsVal r : Int) else none
  | r => if r ≠ [] ∧ r.all Char.isDigit then some (digitsVal r : Int) else none

/-- Round a `Dec` to two decimal places, half to even, returning integer cents:
the embedding of Python `f"{x:.2f}"` on the parsed decimals. -/
def round2cents (d : Dec) : Int :=
  if d.e ≤ 2 then d.m * (10 : Int) ^ (2 - d.e)
  else
    let den : Int := (10 : Int) ^ (d.e - 2)
    let q := Int.fdiv d.m den
    let r := d.m - q * den
    if 2 * r < den then q
    else if den < 2 * r then q + 1
    else if q % 2 = 0 then q else q + 1

/-- `parse_currency_to_decimal` (complete_code.py). The Python function returns
a string, either `""` (here `none`) or a number formatted with two decimals
(here its integer cents). -/
def parse_currency_to_decimal (txt : String) : Option Int :=
  if txt = "" then none
  else
    let t := pyLower (pyStrip txt)
    if t = "free" ∨ t = "basic" then some 0
    else
      let t := pyFilter (fun c => c.isDigit || c == ',' || c == '.' || c == '-') t
      let t :=
        if pyContains t ',' ∧ pyContains t '.' then pyReplace t "," ""
        else if pyContains t ',' ∧ ¬ pyContains t '.' then pyReplace t "," "."
        else t
      match pyFloat? t with
      | some d => some (round2cents d)
      | none => none

/-- `parse_price_modifier` (complete_code.py): price text to a float with two
decimals, embedded as integer cents; every failure yields `0.00`. -/
def parse_price_modifier (price_text : String) : Int :=
  if price_text = "" ∨ pyLower price_text = "free" ∨ pyLower price_text = "basic" then 0
  else
    match parse_currency_to_decimal price_text with
    | some c => c
    | none => 0

/-- Modifier kind of `_parse_modifier` (overgear_scraper_selenium.py). -/
inductive ModKind
  | percent
  | absolute
deriving DecidableEq, Repr

/-- Result record of `_parse_modifier`: `{"kind": ..., "value": float(...)}`. -/
structure Modifier where
  kind : ModKind
  value : Dec
deriving DecidableEq, Repr

/-- `_parse_modifier` (overgear_scraper_selenium.py). -/
def _parse_modifier (raw : String) : Option Modifier :=
  if raw = "" then none
  else
    let t := pyStrip (ofChars ((pyStrip raw).data.dropWhile (· == '+')))
    if pyEndsWith t "%" then
      match pyFloat? (pyReplace (pyStrip (pyDropRight t 1)) "," ".") with
      | some v => some ⟨ModKind.percent, v⟩
      | none => none
    else
      let num := pyFilter (fun c => c.isDigit || c == ',' || c == '.' || c == '-') t
      if num = "" then none
      else
        let num :=
          if pyContains num ',' ∧ pyContains num '.' then pyReplace num "," ""
          else if pyContains num ',' ∧ ¬ pyContains num '.' then pyReplace num "," "."
          else num
        match pyFloat? num with
        | some v => some ⟨ModKind.absolute, v⟩
        | none => none

/-- Python `sep.join(xs)`. -/
def pyJoin (sep : String) : List String → String
  | [] => ""
  | [x] => x
  | x :: xs => x ++ sep ++ pyJoin sep xs

/-- Python `str(x)` of a nullable string (`str(None)` is `"None"`). -/
def pyStrOpt : Option String → String
  | none => "None"
  | some s => s

/-- A numeric `<input>` inside a range cluster: its `type` attribute and
nullable `value` attribute. -/
structure NumInput where
  type_ : String
  value : Option String
deriving DecidableEq, Repr

/-- An `.input-container` inside a range cluster: its `.label` element texts
and its `<input>` elements. -/
structure InputContainer where
  labelTexts : List String
  inputs : List NumInput
deriving DecidableEq, Repr

/-- A `.product-option-cluster-range` cluster: knob count
(`.range__body .range__knob`), input containers, and `.range__scale-item` texts. -/
structure RangeCluster where
  knobs : Nat
  containers : List InputContainer
  scaleTexts : List String
deriving DecidableEq, Repr

/-- A radio or checkbox `<input>`: nullable `value` attribute and whether the
`checked` attribute is present. -/
structure ToggleInput where
  value : Option String
  checked : Bool
deriving DecidableEq, Repr

/-- A `.radio-option` element: visibility, its `input[type='radio']` elements,
its `.radio-check__label` texts, its whole text, and its `.radio-option__price`
texts. -/
structure RadioOption where
  visible : Bool
  inputs : List ToggleInput
  labelTexts : List String
  text : String
  priceTexts : List String
deriving DecidableEq, Repr

/-- A `<button>` inside a buttons cluster. The DOM element also carries a
`value` attribute and a price text; the scraper reads only the label
(`.button-option__label`) and the whole text, so the last two fields are
never consumed by any function below. -/
structure ButtonOption where
  visible : Bool
  labelTexts : List String
  text : String
  value : Option String
  priceText : String
deriving DecidableEq, Repr

/-- A `.checkbox-option` element. -/
structure CheckboxOption where
  visible : Bool
  inputs : List ToggleInput
  labelTexts : List String
  text : String
  priceTexts : List String
deriving DecidableEq, Repr

/-- One `<option>` of a select element: text, nullable `value` attribute,
and whether the `selected` attribute is present. -/
structure SelectOpt where
  text : String
  value : Option String
  selected : Bool
deriving DecidableEq, Repr

/-- A `.product-option` group node as the scraper queries it: visibility,
`.product-option__label` texts, and at most one cluster of each kind
(`find_elements` on a missing cluster returns the empty list, here `none`). -/
structure GroupEl where
  visible : Bool
  labelTexts : List String
  rangeCluster : Option RangeCluster
  radios : Option (List RadioOption)
  buttons : Option (List (List ButtonOption))
  checkboxes : Option (List CheckboxOption)
  selectEl : Option (List SelectOpt)
  outerHTML : String
deriving DecidableEq, Repr

/-- `detect_slider_kind` (complete_code.py): `'range'` for a dual-knob cluster
(at least 2 knobs or at least 2 `input[type='number']`), else `'slider'`. -/
def detect_slider_kind (group_el : GroupEl) : String :=
  let knob_cnt : Nat := match group_el.rangeCluster with
    | some c => c.knobs
    | none => 0
  let inp_cnt : Nat := match group_el.rangeCluster with
    | some c => ((c.containers.flatMap (·.inputs)).filter (fun i => i.type_ == "number")).length
    | none => 0
  if 2 ≤ knob_cnt ∨ 2 ≤ inp_cnt then "range" else "slider"

/-- First stripped line of a `.radio-check__label` text that is nonempty, does
not start with `+`, and is not `free` (case-insensitive); `""` if none. -/
def radioLabelFromLines (t : String) : String :=
  ((((pySplitChar '\n' t).map pyStrip).find?
      fun u => decide (u ≠ "" ∧ ¬ pyStartsWith u "+" = true ∧ pyLower u ≠ "free"))).getD ""

/-- The `(label, value, price-text)` triple the classifier extracts from one
`.radio-option`, `none` when the option is skipped (invisible or without a
radio input). -/
def radioTupleOf (ro : RadioOption) : Option (String × String × String) :=
  if ro.visible then
    match ro.inputs.head? with
    | some inp =>
      let val := inp.value.getD ""
      let lab0 := match ro.labelTexts.head? with
        | some lt => radioLabelFromLines lt
        | none => ""
      let lab_txt := if lab0 = "" then clean_text ro.text else lab0
      let price_txt := match ro.priceTexts.head? with
        | some pt => clean_text pt
        | none => ""
      some (lab_txt, val, price_txt)
    | none => none
  else none

/-- Render one radio/checkbox signature item, `f"{lab}|{val}|{price}"`. -/
def renderItem (t : String × String × String) : String :=
  t.1 ++ "|" ++ t.2.1 ++ "|" ++ t.2.2

/-- The classifier's signature items for a radios cluster. -/
def radioItems (ros : List RadioOption) : List String :=
  (ros.filterMap radioTupleOf).map renderItem

/-- The `(label, value, price-text)` triple the classifier extracts from one
`.checkbox-option` (`none` when invisible; a missing input gives value `""`,
an input with a null `value` attribute renders as `"None"` in the f-string). -/
def checkboxTupleOf (co : CheckboxOption) : Option (String × String × String) :=
  if co.visible then
    let lab_txt := match co.labelTexts.head? with
      | some lt => clean_text lt
      | none => clean_text co.text
    let val := match co.inputs.head? with
      | some i => pyStrOpt i.value
      | none => ""
    let price_txt := match co.priceTexts.head? with
      | some pt => clean_text pt
      | none => ""
    some (lab_txt, val, price_txt)
  else none

/-- The classifier's signature items for a checkboxes cluster. -/
def checkboxItems (cos : List CheckboxOption) : List String :=
  (cos.filterMap checkboxTupleOf).map renderItem

/-- The classifier's signature item for one visible button: only its label. -/
def buttonItemOf (btn : ButtonOption) : Option String :=
  if btn.visible then
    some (match btn.labelTexts.head? with
      | some lt => clean_text lt
      | none => clean_text btn.text)
  else none

/-- The classifier's signature items for a buttons cluster (all `<button>`
elements of the cluster in DOM order). -/
def buttonItems (bss : List (List ButtonOption)) : List String :=
  (bss.flatMap id).filterMap buttonItemOf

/-- `group_kind_and_signature` (complete_code.py): `(kind, label, signature)`
for one group node; `hsh` embeds `sha256(...).hexdigest()`. -/
def group_kind_and_signature (hsh : String → String) (group_el : GroupEl) :
    String × String × String :=
  let label := match group_el.labelTexts.head? with
    | some lt => clean_text lt
    | none => "Option"
  let slug := pyStrip (pyReplace (pyLower label) ":" "")
  let tryRange : Option (String × String × String) :=
    match group_el.rangeCluster with
    | some c =>
      if group_el.visible then
        let kind := detect_slider_kind group_el
        let scales := (c.scaleTexts.map clean_text).filter (· ≠ "")
        let defaults := (c.containers.flatMap (·.inputs)).filterMap fun ip =>
          let v := ip.value.getD ""
          if v ≠ "" then some v else none
        let sig := kind ++ "|" ++ slug ++ "|scale:" ++ pyJoin "," scales ++
          "|def:" ++ pyJoin "," defaults
        some (kind, label, hsh sig)
      else none
    | none => none
  match tryRange with
  | some r => r
  | none =>
    match group_el.radios with
    | some ros =>
      ("radio", label, hsh ("radio|" ++ slug ++ "|items:" ++ pyJoin "||" (radioItems ros)))
    | none =>
      match group_el.buttons with
      | some bss =>
        ("buttons", label, hsh ("buttons|" ++ slug ++ "|items:" ++ pyJoin "||" (buttonItems bss)))
      | none =>
        match group_el.checkboxes with
        | some cos =>
          ("checkbox", label, hsh ("checkbox|" ++ slug ++ "|items:" ++ pyJoin "||" (checkboxItems cos)))
        | none =>
          match group_el.selectEl with
          | some opts =>
            ("select", label, hsh ("select|" ++ slug ++ "|items:" ++
              pyJoin "||" (opts.map fun o => clean_text o.text)))
          | none =>
            ("unknown", label, hsh ("unknown|" ++ slug ++ "|" ++ ofChars (group_el.outerHTML.data.take 500)))

/-- One extracted option row, with the schema of `service_options.csv`.
`price_modifier` is in integer cents (the Python float always carries a
two-decimal parsed price). -/
structure Row where
  option_id : Nat
  service_id : Nat
  parent_option_id : Option Nat
  option_type : String
  option_name : String
  option_label : String
  option_value : Option String
  price_modifier : Int
  min_value : Option Int
  max_value : Option Int
  default_value : Option String
  is_required : Nat
  display_order : Nat
  is_active : Nat
  created_at : String
  updated_at : String
deriving DecidableEq, Repr, Inhabited

/-- Python slug `s.lower().replace(' ', '_').replace(':', '')`. -/
def pyNameSlug (s : String) : String := pyReplace (pyReplace (pyLower s) " " "_") ":" ""

/-- Python slug `s.lower().replace(' ', '_')` (children keep their colons). -/
def pyUnderscore (s : String) : String := pyReplace (pyLower s) " " "_"

/-- `extract_slider_labels` (complete_code.py): per-input `.label` texts,
falling back to the group's `.product-option__label`, then `"Value"`.
In this scraper the only `.input-container` elements of a group live inside
its range cluster. -/
def extract_slider_labels (group_el : GroupEl) : List String :=
  let containers := match group_el.rangeCluster with
    | some c => c.containers
    | none => []
  let labels := containers.foldl (fun acc ct =>
    match ct.labelTexts.head? with
    | some lt =>
      let t := clean_text lt
      if t ≠ "" then acc ++ [t] else acc
    | none => acc) []
  let labels : List String := if labels = [] then
      match group_el.labelTexts.head? with
      | some ml => [clean_text ml]
      | none => []
    else labels
  if labels = [] then ["Value"] else labels

/-- Child rows emitted by `write_slider_or_range`, one per slider label. -/
def slider_child_rows (now : String) (service_id parent_id : Nat)
    (kind parent_option_name : String) (multi : Bool) (min_val max_val : Option Int)
    (default_values : List String) :
    List (Nat × String) → Nat → Nat → List Row
  | [], _, _ => []
  | (i, lab) :: rest, option_id, display_order =>
    let value_option_name :=
      if multi then parent_option_name ++ "_value_" ++ toString (i + 1)
      else parent_option_name ++ "_value"
    let default_val := default_values.getD i ""
    { option_id := option_id, service_id := service_id, parent_option_id := some parent_id,
      option_type := kind ++ "_value", option_name := value_option_name,
      option_label := lab, option_value := some default_val, price_modifier := 0,
      min_value := min_val, max_value := max_val, default_value := some default_val,
      is_required := 1, display_order := display_order, is_active := 1,
      created_at := now, updated_at := now } ::
      slider_child_rows now service_id parent_id kind parent_option_name multi min_val max_val
        default_values rest (option_id + 1) (display_order + 1)

/-- `write_slider_or_range` (complete_code.py). Returns
`(new option_id, new display_order, parent row id, emitted rows)`; the Python
version appends the rows to `rows_out`. -/
def write_slider_or_range (now : String) (group_el : GroupEl) (kind _label : String)
    (parent_option_id : Option Nat) (service_id option_id_start display_order : Nat) :
    Nat × Nat × Nat × List Row :=
  let slider_labels := extract_slider_labels group_el
  let pn_pl : String × String :=
    match slider_labels with
    | [l1] => (pyNameSlug l1, l1)
    | [l1, l2] => (pyNameSlug l1 ++ "_" ++ pyNameSlug l2, l1 ++ " /// " ++ l2)
    | ls => (pyJoin "_" (ls.map pyNameSlug), pyJoin " /// " ls)
  let parent_id := option_id_start
  let parentRow : Row :=
    { option_id := parent_id, service_id := service_id, parent_option_id := parent_option_id,
      option_type := kind, option_name := pn_pl.1, option_label := pn_pl.2,
      option_value := none, price_modifier := 0, min_value := none, max_value := none,
      default_value := none, is_required := 1, display_order := display_order,
      is_active := 1, created_at := now, updated_at := now }
  let scaleTexts := match group_el.rangeCluster with
    | some c => c.scaleTexts
    | none => []
  let mm : Option Int × Option Int :=
    match scaleTexts with
    | [] => (none, none)
    | s0 :: rest =>
      match pyInt? (clean_text s0) with
      | none => (none, none)
      | some mn => (some mn, pyInt? (clean_text ((s0 :: rest).getLastD "")))
  let rangeInputs : List NumInput := match group_el.rangeCluster with
    | some c => c.containers.flatMap (·.inputs)
    | none => []
  let default_values := rangeInputs.filterMap fun ip =>
    let v := ip.value.getD ""
    if v ≠ "" then some v else none
  let children := slider_child_rows now service_id parent_id kind pn_pl.1
    (decide (1 < slider_labels.length)) mm.1 mm.2 default_values
    slider_labels.enum (option_id_start + 1) (display_order + 1)
  (option_id_start + 1 + slider_labels.length, display_order + 1 + slider_labels.length,
    parent_id, parentRow :: children)

/-- Child rows emitted by `write_radios`, plus the `(row id, value)` pairs the
Python version collects in `value_rows`. -/
def radio_child_rows (now : String) (service_id parent_id : Nat) (label : String) :
    List RadioOption → Nat → Nat → Nat × Nat × List Row × List (Nat × String)
  | [], option_id, display_order => (option_id, display_order, [], [])
  | ro :: rest, option_id, display_order =>
    if ro.visible then
      match ro.inputs.head? with
      | some inp =>
        let val := inp.value.getD ""
        let lab0 := match ro.labelTexts.head? with
          | some lt => radioLabelFromLines lt
          | none => ""
        let txt := if lab0 = "" then clean_text ro.text else lab0
        let price_mod := match ro.priceTexts.head? with
          | some pt => parse_price_modifier (pyStrip pt)
          | none => 0
        let row : Row :=
          { option_id := option_id, service_id := service_id, parent_option_id := some parent_id,
            option_type := "radio", option_name := pyUnderscore label ++ "_" ++ pyUnderscore txt,
            option_label := txt, option_value := some val, price_modifier := price_mod,
            min_value := none, max_value := none,
            default_value := if inp.checked then some val else none,
            is_required := 0, display_order := display_order, is_active := 1,
            created_at := now, updated_at := now }
        let r := radio_child_rows now service_id parent_id label rest (option_id + 1) (display_order + 1)
        (r.1, r.2.1, row :: r.2.2.1, (option_id, val) :: r.2.2.2)
      | none => radio_child_rows now service_id parent_id label rest option_id display_order
    else radio_child_rows now service_id parent_id label rest option_id display_order

/-- `write_radios` (complete_code.py). Returns
`(new option_id, new display_order, parent row id, emitted rows, value_rows)`. -/
def write_radios (now : String) (group_el : GroupEl) (label : String)
    (parent_option_id : Option Nat) (service_id option_id_start display_order : Nat) :
    Nat × Nat × Nat × List Row × List (Nat × String) :=
  let parent_id := option_id_start
  let parentRow : Row :=
    { option_id := parent_id, service_id := service_id, parent_option_id := parent_option_id,
      option_type := "radio", option_name := pyNameSlug label, option_label := label,
      option_value := none, price_modifier := 0, min_value := none, max_value := none,
      default_value := none, is_required := 1, display_order := display_order,
      is_active := 1, created_at := now, updated_at := now }
  let r := radio_child_rows now service_id parent_id label (group_el.radios.getD [])
    (option_id_start + 1) (display_order + 1)
  (r.1, r.2.1, parent_id, parentRow :: r.2.2.1, r.2.2.2)

/-- Child rows emitted for the buttons of one `.buttons-group`. -/
def button_child_rows (now : String) (service_id parent_id : Nat) (label : String) :
    List ButtonOption → Nat → Nat → Nat × Nat × List Row
  | [], option_id, display_order => (option_id, display_order, [])
  | btn :: rest, option_id, display_order =>
    if btn.visible then
      let txt := match btn.labelTexts.head? with
        | some lt => clean_text lt
        | none => clean_text btn.text
      let val := pyUnderscore txt
      let row : Row :=
        { option_id := option_id, service_id := service_id, parent_option_id := some parent_id,
          option_type := "radio", option_name := pyUnderscore label ++ "_" ++ val,
          option_label := txt, option_value := some val, price_modifier := 0,
          min_value := none, max_value := none, default_value := none,
          is_required := 0, display_order := display_order, is_active := 1,
          created_at := now, updated_at := now }
      let r := button_child_rows now service_id parent_id label rest (option_id + 1) (display_order + 1)
      (r.1, r.2.1, row :: r.2.2)
    else button_child_rows now service_id parent_id label rest option_id display_order

/-- Child rows over all `.buttons-group` groups of a buttons cluster. -/
def button_group_rows (now : String) (service_id parent_id : Nat) (label : String) :
    List (List ButtonOption) → Nat → Nat → Nat × Nat × List Row
  | [], option_id, display_order => (option_id, display_order, [])
  | bg :: rest, option_id, display_order =>
    let r := button_child_rows now service_id parent_id label bg option_id display_order
    let r2 := button_group_rows now service_id parent_id label rest r.1 r.2.1
    (r2.1, r2.2.1, r.2.2 ++ r2.2.2)

/-- `write_buttons_as_radio` (complete_code.py). -/
def write_buttons_as_radio (now : String) (group_el : GroupEl) (label : String)
    (parent_option_id : Option Nat) (service_id option_id_start display_order : Nat) :
    Nat × Nat × Nat × List Row :=
  let parent_id := option_id_start
  let parentRow : Row :=
    { option_id := parent_id, service_id := service_id, parent_option_id := parent_option_id,
      option_type := "radio", option_name := pyNameSlug label, option_label := label,
      option_value := none, price_modifier := 0, min_value := none, max_value := none,
      default_value := none, is_required := 1, display_order := display_order,
      is_active := 1, created_at := now, updated_at := now }
  let r := button_group_rows now service_id parent_id label (group_el.buttons.getD [])
    (option_id_start + 1) (display_order + 1)
  (r.1, r.2.1, parent_id, parentRow :: r.2.2)

/-- Child rows emitted by `write_checkboxes`. -/
def checkbox_child_rows (now : String) (service_id parent_id : Nat) (label : String) :
    List CheckboxOption → Nat → Nat → Nat × Nat × List Row
  | [], option_id, display_order => (option_id, display_order, [])
  | co :: rest, option_id, display_order =>
    if co.visible then
      match co.inputs.head? with
      | some chk =>
        let txt := match co.labelTexts.head? with
          | some lt => clean_text lt
          | none => clean_text co.text
        let price_mod := match co.priceTexts.head? with
          | some pt => parse_price_modifier (pyStrip pt)
          | none => 0
        let val := match chk.value with
          | some v => if v ≠ "" then v else pyUnderscore txt
          | none => pyUnderscore txt
        let row : Row :=
          { option_id := option_id, service_id := service_id, parent_option_id := some parent_id,
            option_type := "checkbox", option_name := pyUnderscore label ++ "_" ++ val,
            option_label := txt, option_value := some val, price_modifier := price_mod,
            min_value := none, max_value := none,
            default_value := if chk.checked then some val else none,
            is_required := 0, display_order := display_order, is_active := 1,
            created_at := now, updated_at := now }
        let r := checkbox_child_rows now service_id parent_id label rest (option_id + 1) (display_order + 1)
        (r.1, r.2.1, row :: r.2.2)
      | none => checkbox_child_rows now service_id parent_id label rest option_id display_order
    else checkbox_child_rows now service_id parent_id label rest option_id display_order

/-- `write_checkboxes` (complete_code.py). -/
def write_checkboxes (now : String) (group_el : GroupEl) (label : String)
    (parent_option_id : Option Nat) (service_id option_id_start display_order : Nat) :
    Nat × Nat × Nat × List Row :=
  let parent_id := option_id_start
  let parentRow : Row :=
    { option_id := parent_id, service_id := service_id, parent_option_id := parent_option_id,
      option_type := "checkbox", option_name := pyNameSlug label, option_label := label,
      option_value := none, price_modifier := 0, min_value := none, max_value := none,
      default_value := none, is_required := 0, display_order := display_order,
      is_active := 1, created_at := now, updated_at := now }
  let r := checkbox_child_rows now service_id parent_id label (group_el.checkboxes.getD [])
    (option_id_start + 1) (display_order + 1)
  (r.1, r.2.1, parent_id, parentRow :: r.2.2)

/-- Child rows of the select branch of `parse_group_to_rows_fixed`. -/
def select_child_rows (now : String) (service_id parent_id : Nat) (label : String) :
    List SelectOpt → Nat → Nat → Nat × Nat × List Row
  | [], option_id, display_order => (option_id, display_order, [])
  | o :: rest, option_id, display_order =>
    let txt := clean_text o.text
    let val := match o.value with
      | some v => if v ≠ "" then v else pyUnderscore txt
      | none => pyUnderscore txt
    let row : Row :=
      { option_id := option_id, service_id := service_id, parent_option_id := some parent_id,
        option_type := "dropdown", option_name := pyUnderscore label ++ "_" ++ val,
        option_label := txt, option_value := some val, price_modifier := 0,
        min_value := none, max_value := none,
        default_value := if o.selected then some val else none,
        is_required := 0, display_order := display_order, is_active := 1,
        created_at := now, updated_at := now }
    let r := select_child_rows now service_id parent_id label rest (option_id + 1) (display_order + 1)
    (r.1, r.2.1, row :: r.2.2)

/-- `parse_group_to_rows_fixed` (complete_code.py): dispatch on `kind`, emitting
a parent row plus children. Returns
`(new option_id, new display_order, parent row id, emitted rows)`. -/
def parse_group_to_rows_fixed (now : String) (group_el : GroupEl) (kind label : String)
    (parent_option_id : Option Nat) (service_id option_id_start display_order : Nat) :
    Nat × Nat × Option Nat × List Row :=
  if kind = "slider" ∨ kind = "range" then
    let r := write_slider_or_range now group_el kind label parent_option_id service_id
      option_id_start display_order
    (r.1, r.2.1, some r.2.2.1, r.2.2.2)
  else if kind = "radio" then
    let r := write_radios now group_el label parent_option_id service_id
      option_id_start display_order
    (r.1, r.2.1, some r.2.2.1, r.2.2.2.1)
  else if kind = "buttons" then
    let r := write_buttons_as_radio now group_el label parent_option_id service_id
      option_id_start display_order
    (r.1, r.2.1, some r.2.2.1, r.2.2.2)
  else if kind = "checkbox" then
    let r := write_checkboxes now group_el label parent_option_id service_id
      option_id_start display_order
    (r.1, r.2.1, some r.2.2.1, r.2.2.2)
  else if kind = "select" then
    let parent_id := option_id_start
    let parentRow : Row :=
      { option_id := parent_id, service_id := service_id, parent_option_id := parent_option_id,
        option_type := "dropdown", option_name := pyNameSlug label, option_label := label,
        option_value := none, price_modifier := 0, min_value := none, max_value := none,
        default_value := none, is_required := 1, display_order := display_order,
        is_active := 1, created_at := now, updated_at := now }
    match group_el.selectEl with
    | some opts =>
      let r := select_child_rows now service_id parent_id label opts
        (option_id_start + 1) (display_order + 1)
      (r.1, r.2.1, some parent_id, parentRow :: r.2.2)
    | none => (option_id_start + 1, display_order + 1, some parent_id, [parentRow])
  else (option_id_start, display_order, none, [])

/-- The per-type rule of `normalize_option_types_in_rows`: strip, drop one
trailing `_value`, map `button`/`buttons` to `radio`. -/
def normalizeType (t0 : String) : String :=
  let t := pyStrip t0
  let t := if pyEndsWith t "_value" then pyDropRight t 6 else t
  if t = "button" ∨ t = "buttons" then "radio" else t

/-- `normalize_option_types_in_rows` (complete_code.py). -/
def normalize_option_types_in_rows (rows : List Row) : List Row :=
  rows.map fun r => { r with option_type := normalizeType r.option_type }

/-- Insert into a Python-dict-like association list: overwrite an existing
key in place, else append. -/
def dictInsert {κ ν : Type} [DecidableEq κ] (m : List (κ × ν)) (k : κ) (v : ν) : List (κ × ν) :=
  if m.any (fun p => p.1 == k) then m.map (fun p => if p.1 = k then (k, v) else p)
  else m ++ [(k, v)]

/-- Lookup in a Python-dict-like association list (`dict.get`). -/
def dictLookup {κ ν : Type} [DecidableEq κ] (m : List (κ × ν)) (k : κ) : Option ν :=
  (m.find? (fun p => p.1 == k)).map (·.2)

/-- An `.option-group` node of the options container: its visibility and its
`.product-option` children (the scraper uses the first, if any). -/
structure OuterGroup where
  visible : Bool
  inner : List GroupEl
deriving DecidableEq, Repr

/-- The page as the snapshot loop observes it: whether the options container is
present, the baseline groups, and — for the i-th trigger click of the loop —
whether the click succeeds and which groups the rescan then sees.  The live
DOM is a stateful oracle; indexing the post-click state by loop iteration is
its pure embedding. -/
structure Page where
  hasContainer : Bool
  baseline : List OuterGroup
  clickOk : Nat → Bool
  rescan : Nat → List OuterGroup

/-- Mutable state threaded through `extract_options_with_snapshots_fixed`:
`rows_out`, the `option_id` counter, the `display_order` counter, and the
`baseline_sigs` map. -/
structure ExtState where
  rows : List Row
  oid : Nat
  disp : Nat
  sigs : List ((String × String) × String)

/-- The baseline scan: visible `.option-group`s with a `.product-option`,
classified. -/
def scan_visible_groups (hsh : String → String) (groups : List OuterGroup) :
    List (GroupEl × String × String × String) :=
  groups.filterMap fun og =>
    if og.visible then
      match og.inner.head? with
      | some el =>
        let r := group_kind_and_signature hsh el
        some (el, r.1, r.2.1, r.2.2)
      | none => none
    else none

/-- Writing one baseline group (`parse_group_to_rows_fixed` with a null parent). -/
def baselineWriteStep (now : String) (service_id : Nat) (st : ExtState)
    (g : GroupEl × String × String × String) : ExtState :=
  let r := parse_group_to_rows_fixed now g.1 g.2.1 g.2.2.1 none service_id st.oid st.disp
  { st with rows := st.rows ++ r.2.2.2, oid := r.1, disp := r.2.1 }

/-- `radio_value_parent_row_ids` (complete_code.py): map each Difficulty choice
value to the `option_id` of its row. -/
def buildRadioValueMap (service_id : Nat) (rows : List Row) : List (String × Nat) :=
  rows.foldl (fun m r =>
    if r.option_type = "radio" ∧ r.service_id = service_id ∧
        pyStartsWith r.option_name "difficulty_" = true then
      dictInsert m (pyStrOpt r.option_value) r.option_id
    else m) []

/-- The radio input values of the Difficulty group (nonempty `value` attributes,
in DOM order). -/
def difficultyRadioValues (el : GroupEl) : List String :=
  ((el.radios.getD []).flatMap (·.inputs)).filterMap fun inp =>
    let v := inp.value.getD ""
    if v ≠ "" then some v else none

/-- The body of the inner rescan loop: classify one group, skip the Difficulty
group, skip groups whose signature matches the recorded one, otherwise record
the new signature and write the group's rows under the selected choice's row. -/
def rescanStep (hsh : String → String) (now : String) (service_id pid : Nat)
    (st : ExtState) (og : OuterGroup) : ExtState :=
  if og.visible then
    match og.inner.head? with
    | some el =>
      let c := group_kind_and_signature hsh el
      let kind := c.1
      let label := c.2.1
      let sig := c.2.2
      if kind = "radio" ∧ pyLower (pyStrip label) = "difficulty" then st
      else
        let emit : ExtState :=
          let r := parse_group_to_rows_fixed now el kind label (some pid) service_id st.oid st.disp
          { rows := st.rows ++ r.2.2.2, oid := r.1, disp := r.2.1,
            sigs := dictInsert st.sigs (kind, label) sig }
        match dictLookup st.sigs (kind, label) with
        | some b => if b ≠ "" ∧ b = sig then st else emit
        | none => emit
    | none => st
  else st

/-- The body of the outer trigger loop for the `i`-th value `v`: resolve the
row id of the choice (skipping falsy ids), click, and rescan. -/
def triggerStep (hsh : String → String) (now : String) (service_id : Nat) (page : Page)
    (rvMap : List (String × Nat)) (st : ExtState) (iv : Nat × String) : ExtState :=
  match dictLookup rvMap iv.2 with
  | none => st
  | some pid =>
    if pid = 0 then st
    else if page.clickOk iv.1 then (page.rescan iv.1).foldl (rescanStep hsh now service_id pid) st
    else st

/-- `extract_options_with_snapshots_fixed` (complete_code.py): baseline scan and
write, Difficulty trigger enumeration, and per-trigger rescan/diff. -/
def extract_options_with_snapshots_fixed (hsh : String → String) (now : String)
    (page : Page) (startOptionId service_id : Nat) : List Row :=
  if page.hasContainer then
    let scanned := scan_visible_groups hsh page.baseline
    let baseline_sigs := scanned.foldl (fun m g => dictInsert m (g.2.1, g.2.2.1) g.2.2.2) []
    let st0 : ExtState := ⟨[], startOptionId, 1, baseline_sigs⟩
    let st1 := scanned.foldl (baselineWriteStep now service_id) st0
    match scanned.find? (fun g => g.2.1 == "radio" && pyLower (pyStrip g.2.2.1) == "difficulty") with
    | none => st1.rows
    | some dg =>
      let rvMap := buildRadioValueMap service_id st1.rows
      let radio_values := difficultyRadioValues dg.1
      (radio_values.enum.foldl (triggerStep hsh now service_id page rvMap) st1).rows
  else []

/-- A `services2.csv` row as pandas reads it (`dtype=str`,
`keep_default_na=False`: every cell is a string, blanks included). -/
structure SRow where
  service_id : String
  game_id : String
  name : String
  description : String
  price_per_unit : String
  sale_price : String
  icon_url : String
  category : String
  game_name : String
deriving DecidableEq, Repr

/-- A `service_options2.csv` row as pandas reads it (all cells strings). -/
structure ORow where
  option_id : String
  service_id : String
  parent_option_id : String
  option_type : String
  option_name : String
  option_label : String
  option_value : String
  price_modifier : String
  min_value : String
  max_value : String
  default_value : String
  is_required : String
  display_order : String
  is_active : String
  created_at : String
  updated_at : String
deriving DecidableEq, Repr

/-- `is_nullish` (complete_code.py) restricted to the string cells pandas
produces here (`None` and float NaN cannot occur under `dtype=str`,
`keep_default_na=False`). -/
def is_nullish (v : String) : Bool := pyStrip v == ""

/-- `to_nullable_decimal` (complete_code.py): `float(str(s))`, `None` on failure. -/
def to_nullable_decimal (s : String) : Option Dec :=
  if is_nullish s then none else pyFloat? s

/-- Truncation of a decimal toward zero (Python `int(float)`). -/
def truncDec (d : Dec) : Int :=
  let n : Nat := d.m.natAbs / 10 ^ d.e
  if d.m < 0 then -(n : Int) else (n : Int)

/-- `to_nullable_int` (complete_code.py): `int(float(v))`, `None` on failure. -/
def to_nullable_int (v : String) : Option Int :=
  if is_nullish v then none else (pyFloat? v).map truncDec

/-- `to_nullable_str` (complete_code.py). -/
def to_nullable_str (v : String) : Option String :=
  if is_nullish v then none else some v

/-- `is_parent_row` (complete_code.py): blank or `nan` parent reference. -/
def is_parent_row (orow : ORow) : Bool :=
  pyStrip orow.parent_option_id == "" || pyLower orow.parent_option_id == "nan"

/-- The per-value rule of `clean_option_types` (complete_code.py):
`re.sub(r"_value$", "", t)` then map `buttons`/`button` to `radio`. -/
def cleanTypeValue (t0 : String) : String :=
  let t := if pyEndsWith t0 "_value" then pyDropRight t0 6 else t0
  if t = "buttons" ∨ t = "button" then "radio" else t

/-- `clean_option_types` (complete_code.py), applied to the whole options table. -/
def clean_option_types (rows : List ORow) : List ORow :=
  rows.map fun o => { o with option_type := cleanTypeValue o.option_type }

/-- `pd.to_numeric(..., errors="coerce").fillna(0).astype(int)` on one cell. -/
def pdKeyInt (s : String) : Int :=
  match pyFloat? s with
  | some d => truncDec d
  | none => 0

/-- Insert into a sorted list before the first strictly greater element
(keeps the original order of equal keys). -/
def insSorted {α : Type} (lt : α → α → Bool) (x : α) : List α → List α
  | [] => [x]
  | y :: ys => if lt x y then x :: y :: ys else y :: insSorted lt x ys

/-- Stable sort by a strict comparator (`sort_values(..., kind="stable")`). -/
def stableSort {α : Type} (lt : α → α → Bool) (l : List α) : List α :=
  l.foldl (fun acc x => insSorted lt x acc) []

/-- Parent sort key comparison: `(display_order_int, option_id_int)`. -/
def parentLt (a b : ORow) : Bool :=
  if pdKeyInt a.display_order < pdKeyInt b.display_order then true
  else if pdKeyInt a.display_order = pdKeyInt b.display_order then
    decide (pdKeyInt a.option_id < pdKeyInt b.option_id)
  else false

/-- Child sort key comparison:
`(parent_option_id_int, display_order_int, option_id_int)`. -/
def childLt (a b : ORow) : Bool :=
  if pdKeyInt a.parent_option_id < pdKeyInt b.parent_option_id then true
  else if pdKeyInt a.parent_option_id = pdKeyInt b.parent_option_id then parentLt a b
  else false

/-- A persisted `services` record (column values of `INSERT_SERVICE_SQL`). -/
structure SvcRec where
  game_id : Nat
  name : Option String
  description : Option String
  price_per_unit : Option Dec
  sale_price : Option Dec
  icon_url : Option String
  category : Option String
deriving DecidableEq, Repr

/-- A persisted `service_options` record (column values of `INSERT_OPTION_SQL`). -/
structure OptRec where
  service_id : Nat
  parent_option_id : Option Nat
  option_type : Option String
  option_name : Option String
  option_label : Option String
  option_value : Option String
  price_modifier : Option Dec
  min_value : Option Int
  max_value : Option Int
  default_value : Option String
  is_required : Option Int
  display_order : Option Int
  is_active : Option Int
  created_at : Option String
  updated_at : Option String
deriving DecidableEq, Repr

/-- One SQL statement executed through the cursor. -/
inductive DbOp
  | selectService (game_id : Nat) (name : Option String)
  | insertService (game_id : Nat) (name description : Option String)
      (price_per_unit sale_price : Option Dec) (icon_url category : Option String)
  | insertOption (rec_ : OptRec)
deriving DecidableEq, Repr

/-- The visible relational store: rows keyed by their auto-increment ids. -/
structure Db where
  services : List (Nat × SvcRec)
  options : List (Nat × OptRec)
deriving DecidableEq, Repr

/-- A MySQL connection with `autocommit = False`: committed rows, the pending
rows of the open transaction, the auto-increment counters (which survive a
rollback, as in MySQL), a running count of insert statements (index for the
failure oracle), the statement log, and the printed diagnostics. -/
structure Conn where
  committed : Db
  pending : Db
  nextServiceId : Nat
  nextOptionId : Nat
  insertCount : Nat
  ops : List DbOp
  warnings : List String
deriving DecidableEq, Repr

/-- `FORCE_GAME_ID` (complete_code.py). -/
def FORCE_GAME_ID : Nat := 21

/-- `REUSE_EXISTING_SERVICE_BY_NAME` (complete_code.py). -/
def REUSE_EXISTING_SERVICE_BY_NAME : Bool := true

/-- `cnx.start_transaction()`: the pending set becomes empty. -/
def start_transaction (conn : Conn) : Conn := { conn with pending := ⟨[], []⟩ }

/-- `cnx.commit()`: pending rows become durably visible. -/
def commitTxn (conn : Conn) : Conn :=
  { conn with
    committed := ⟨conn.committed.services ++ conn.pending.services,
      conn.committed.options ++ conn.pending.options⟩,
    pending := ⟨[], []⟩ }

/-- `cnx.rollback()`: pending rows are discarded. -/
def rollbackTxn (conn : Conn) : Conn := { conn with pending := ⟨[], []⟩ }

/-- `SELECT_SERVICE_SQL`: first service with this `game_id` and (non-null)
`name`, searching committed rows and the transaction's own pending writes. -/
def lookupService (conn : Conn) (game_id : Nat) (name : Option String) : Option Nat :=
  match name with
  | none => none
  | some n =>
    ((conn.committed.services ++ conn.pending.services).find? fun p =>
      p.2.game_id == game_id && p.2.name == some n).map (·.1)

/-- `insert_service` (complete_code.py). `fails n` says whether the `n`-th
insert statement of the run raises; an exception carries the connection state
at the time it is thrown. -/
def insert_service (fails : Nat → Bool) (conn : Conn) (row : SRow) : Except Conn (Conn × Nat) :=
  let game_id := FORCE_GAME_ID
  let name := to_nullable_str row.name
  let doInsert : Conn → Except Conn (Conn × Nat) := fun c =>
    let op := DbOp.insertService game_id name (to_nullable_str row.description)
      (to_nullable_decimal row.price_per_unit) (to_nullable_decimal row.sale_price)
      (to_nullable_str row.icon_url) (to_nullable_str row.category)
    if fails c.insertCount then
      .error { c with insertCount := c.insertCount + 1, ops := c.ops ++ [op] }
    else
      .ok ({ c with
        pending := { c.pending with services := c.pending.services ++
          [(c.nextServiceId, ⟨game_id, name, to_nullable_str row.description,
            to_nullable_decimal row.price_per_unit, to_nullable_decimal row.sale_price,
            to_nullable_str row.icon_url, to_nullable_str row.category⟩)] },
        nextServiceId := c.nextServiceId + 1,
        insertCount := c.insertCount + 1,
        ops := c.ops ++ [op] }, c.nextServiceId)
  if REUSE_EXISTING_SERVICE_BY_NAME ∧ name ≠ none then
    let conn := { conn with ops := conn.ops ++ [DbOp.selectService game_id name] }
    match lookupService conn game_id name with
    | some sid => .ok (conn, sid)
    | none => doInsert conn
  else doInsert conn

/-- The `service_options` record `insert_one_option` builds from a CSV row:
the column conversions of `INSERT_OPTION_SQL`'s parameters. -/
def optRecOf (db_service_id : Nat) (parent_db_id : Option Nat) (orow : ORow) : OptRec :=
  { service_id := db_service_id,
    parent_option_id := parent_db_id,
    option_type := to_nullable_str orow.option_type,
    option_name := to_nullable_str orow.option_name,
    option_label := to_nullable_str orow.option_label,
    option_value := to_nullable_str orow.option_value,
    price_modifier := to_nullable_decimal orow.price_modifier,
    min_value := to_nullable_int orow.min_value,
    max_value := to_nullable_int orow.max_value,
    default_value := to_nullable_str orow.default_value,
    is_required := to_nullable_int orow.is_required,
    display_order := to_nullable_int orow.display_order,
    is_active := to_nullable_int orow.is_active,
    created_at := to_nullable_str orow.created_at,
    updated_at := to_nullable_str orow.updated_at }

/-- `insert_one_option` (complete_code.py). -/
def insert_one_option (fails : Nat → Bool) (conn : Conn) (db_service_id : Nat)
    (orow : ORow) (parent_db_id : Option Nat) : Except Conn (Conn × Nat) :=
  let rec_ : OptRec := optRecOf db_service_id parent_db_id orow
  if fails conn.insertCount then
    .error { conn with insertCount := conn.insertCount + 1, ops := conn.ops ++ [DbOp.insertOption rec_] }
  else
    .ok ({ conn with
      pending := { conn.pending with options := conn.pending.options ++ [(conn.nextOptionId, rec_)] },
      nextOptionId := conn.nextOptionId + 1,
      insertCount := conn.insertCount + 1,
      ops := conn.ops ++ [DbOp.insertOption rec_] }, conn.nextOptionId)

/-- The parent-insert loop of `import_csv_to_database`, threading the
extraction-id to storage-id map. -/
def insertParents (fails : Nat → Bool) (db_service_id : Nat) :
    Conn → List (String × Nat) → List ORow → Except Conn (Conn × List (String × Nat))
  | conn, id_map, [] => .ok (conn, id_map)
  | conn, id_map, p :: rest =>
    match insert_one_option fails conn db_service_id p none with
    | .error e => .error e
    | .ok (conn1, new_id) =>
      insertParents fails db_service_id conn1 (dictInsert id_map p.option_id new_id) rest

/-- The child-insert loop of `import_csv_to_database`: resolve the parent from
the map (a falsy id counts as missing), warn and fall back to a null parent
when unresolved. -/
def insertChildren (fails : Nat → Bool) (db_service_id : Nat) :
    Conn → List (String × Nat) → List ORow → Except Conn (Conn × List (String × Nat))
  | conn, id_map, [] => .ok (conn, id_map)
  | conn, id_map, c :: rest =>
    let csv_parent := pyStrip c.parent_option_id
    let found := dictLookup id_map csv_parent
    let isMissing : Bool := match found with
      | none => true
      | some k => k == 0
    let conn1 := if isMissing then
        { conn with warnings := conn.warnings ++
          ["[WARN] Missing parent for option_id=" ++ c.option_id ++ " (parent=" ++ csv_parent ++ ")"] }
      else conn
    let parent_db_id : Option Nat := if isMissing then none else found
    match insert_one_option fails conn1 db_service_id c parent_db_id with
    | .error e => .error e
    | .ok (conn2, new_id) =>
      insertChildren fails db_service_id conn2 (dictInsert id_map c.option_id new_id) rest

/-- One iteration of the service loop of `import_csv_to_database`:
`start_transaction`, resolve or insert the service, partition and sort its
option rows, insert parents then children, `commit`. An exception propagates
with the connection state at the raise site. -/
def import_service (fails : Nat → Bool) (conn : Conn) (srow : SRow)
    (df_options_all : List ORow) : Except Conn (Conn × Nat) :=
  let conn := start_transaction conn
  match insert_service fails conn srow with
  | .error e => .error e
  | .ok (conn1, db_service_id) =>
    let csv_sid := pyStrip srow.service_id
    let df_opts_raw := df_options_all.filter fun o => o.service_id == csv_sid
    let parents := stableSort parentLt (df_opts_raw.filter fun o => is_parent_row o)
    let children := stableSort childLt (df_opts_raw.filter fun o => !(is_parent_row o))
    match insertParents fails db_service_id conn1 [] parents with
    | .error e => .error e
    | .ok (conn2, id_map) =>
      match insertChildren fails db_service_id conn2 id_map children with
      | .error e => .error e
      | .ok (conn3, _) => .ok (commitTxn conn3, db_service_id)

/-- The service loop of `import_csv_to_database`; on an exception the
`except` block rolls the open transaction back and re-raises (`true` in the
result signals the propagated exception). -/
def importLoop (fails : Nat → Bool) (df_options_all : List ORow) :
    Conn → List SRow → Conn × Bool
  | conn, [] => (conn, false)
  | conn, s :: rest =>
    match import_service fails conn s df_options_all with
    | .ok (conn1, _) => importLoop fails df_options_all conn1 rest
    | .error e => (rollbackTxn e, true)

/-- `import_csv_to_database` (complete_code.py): normalize the option types of
the whole table, then import service by service. -/
def import_csv_to_database (fails : Nat → Bool) (conn : Conn) (df_services : List SRow)
    (df_options_all0 : List ORow) : Conn × Bool :=
  importLoop fails (clean_option_types df_options_all0) conn df_services

/-- The `game_id` parameter carried by a SQL statement, if any. -/
def opGameId : DbOp → Option Nat
  | .selectService g _ => some g
  | .insertService g _ _ _ _ _ _ => some g
  | .insertOption _ => none

/-- The option types the writers can emit before normalization. -/
def rawVocab : List String :=
  ["slider", "range", "slider_value", "range_value", "radio", "checkbox", "dropdown"]

/-- The persisted option-type vocabulary. -/
def persistedVocab : List String := ["slider", "range", "radio", "checkbox", "dropdown"]

/-- Every non-null parent reference of a batch points at the `option_id` of a
strictly earlier row of the same batch. -/
def ParentsEarlier (rows : List Row) : Prop :=
  ∀ i p, i < rows.length → (rows.getD i default).parent_option_id = some p →
    ∃ q ∈ rows.take i, q.option_id = p

/-- The string contains no `|` separator. -/
def noPipeStr (s : String) : Prop := '|' ∉ s.data

/-- No component of a signature tuple contains the `|` separator. -/
def tupNoPipe (t : String × String × String) : Prop :=
  noPipeStr t.1 ∧ noPipeStr t.2.1 ∧ noPipeStr t.2.2

instance (s : String) : Decidable (noPipeStr s) := by
  unfold noPipeStr; infer_instance

instance (t : String × String × String) : Decidable (tupNoPipe t) := by
  unfold tupNoPipe; infer_instance

/-- Character-level rendering of one signature item. -/
def renderItemL (t : String × String × String) : List Char :=
  t.1.data ++ '|' :: (t.2.1.data ++ '|' :: t.2.2.data)

/-- Character-level rendering of a `"||"`-joined item list. -/
def joinItemsL : List (String × String × String) → List Char
  | [] => []
  | [t] => renderItemL t
  | t :: ts => renderItemL t ++ '|' :: '|' :: joinItemsL ts

/-- The columns of a persisted option record that depend only on the source CSV
row (not on the id remapping). -/
def optKeyOf (r : OptRec) : Option String × Option String × Option String × Option String × Option Int :=
  (r.option_type, r.option_name, r.option_label, r.option_value, r.display_order)

/-- The same projection computed from the CSV row. -/
def optKeyORow (o : ORow) : Option String × Option String × Option String × Option String × Option Int :=
  (to_nullable_str o.option_type, to_nullable_str o.option_name, to_nullable_str o.option_label,
    to_nullable_str o.option_value, to_nullable_int o.display_order)

/-- The connection state an importer call ends in, committed or raised. -/
def resultConn : Except Conn (Conn × Nat) → Conn
  | .ok (c, _) => c
  | .error c => c

/-- The behaviour of the child-insert loop on a state: an exception leaves the
committed store untouched; success extends only the pending options (by exactly
the loop's rows), may append warnings, and gives every child whose stripped
parent reference resolves neither in the id map nor among the batch's
`option_id`s a null-parent record plus a missing-parent warning. -/
def ICSpec (fails : Nat → Bool) (sid : Nat) (l : List ORow) (conn : Conn)
    (m : List (String × Nat)) : Prop :=
  (∀ e, insertChildren fails sid conn m l = .error e → e.committed = conn.committed) ∧
  (∀ conn' m', insertChildren fails sid conn m l = .ok (conn', m') →
    conn'.committed = conn.committed ∧
    conn'.pending.services = conn.pending.services ∧
    (∃ w, conn'.warnings = conn.warnings ++ w) ∧
    (∃ t, conn'.pending.options = conn.pending.options ++ t ∧
      t.map (fun q => optKeyOf q.2) = l.map optKeyORow) ∧
    (∀ c ∈ l, pyStrip c.parent_option_id ∉ m.map (fun q => q.1) →
      pyStrip c.parent_option_id ∉ l.map ORow.option_id →
      (∃ id, (id, optRecOf sid none c) ∈ conn'.pending.options) ∧
      ("[WARN] Missing parent for option_id=" ++ c.option_id ++ " (parent=" ++
        pyStrip c.parent_option_id ++ ")") ∈ conn'.warnings))

/- Concrete instances used by witnesses and counterexamples. -/

/-- A fresh connection over an empty store. -/
def connW : Conn := ⟨⟨[], []⟩, ⟨[], []⟩, 1, 1, 0, [], []⟩

/-- A concrete service CSV row. -/
def srowW : SRow := ⟨"1", "99", "Raid", "d", "10.00", "", "i", "c", "g"⟩

/-- A concrete option CSV row builder. -/
def orowW (oid par typ nm disp : String) : ORow :=
  ⟨oid, "1", par, typ, nm, "L", "v", "6.43", "", "", "", "1", disp, "1", "t", "t"⟩

/-- A concrete options table: a parent row, a child of it, and a child whose
parent reference resolves to no row of the batch. -/
def optsW : List ORow :=
  [orowW "1" "" "radio" "p" "1", orowW "2" "1" "radio" "c" "2",
    orowW "3" "9" "radio" "g" "3"]

/-- A concrete group with a two-knob range cluster. -/
def rangeElW : GroupEl := ⟨true, [], some ⟨2, [], []⟩, none, none, none, none, ""⟩

/-- A concrete visible radio choice. -/
def radioOptW (v lab : String) (chk : Bool) : RadioOption := ⟨true, [⟨some v, chk⟩], [lab], lab, []⟩

/-- A concrete Difficulty radio group. -/
def diffElW : GroupEl :=
  ⟨true, ["Difficulty"], none, some [radioOptW "easy" "Easy" true, radioOptW "hard" "Hard" false],
    none, none, none, ""⟩

/-- A concrete checkbox group revealed after a trigger click. -/
def ckElW : GroupEl :=
  ⟨true, ["Hardcore Extras"], none, none, none, some [⟨true, [⟨some "x", false⟩], ["Extra"], "Extra", ["+5 €"]⟩],
    none, ""⟩

/-- A concrete page: a Difficulty radio baseline; clicking its second choice
reveals the checkbox group. -/
def pageW : Page :=
  ⟨true, [⟨true, [diffElW]⟩], fun _ => true,
    fun i => if i = 1 then [⟨true, [diffElW]⟩, ⟨true, [ckElW]⟩] else [⟨true, [diffElW]⟩]⟩

/-- Buttons group: one visible button labelled `X` with value `a`, price `+1 €`. -/
def btnElA : GroupEl :=
  ⟨true, ["Mode"], none, none, some [[⟨true, ["X"], "X", some "a", "+1 €"⟩]], none, none, ""⟩

/-- The same buttons group with the button's value and price text changed. -/
def btnElB : GroupEl :=
  ⟨true, ["Mode"], none, none, some [[⟨true, ["X"], "X", some "b", "+9 €"⟩]], none, none, ""⟩

/-- Radio group whose sole choice has label `x` and value `y|z`. -/
def radElA : GroupEl :=
  ⟨true, ["Mode"], none, some [⟨true, [⟨some "y|z", false⟩], ["x"], "x", []⟩], none, none, none, ""⟩

/-- Radio group whose sole choice has label `x|y` and value `z`: a different
(label, value) pair with the same rendered signature item. -/
def radElB : GroupEl :=
  ⟨true, ["Mode"], none, some [⟨true, [⟨some "z", false⟩], ["x|y"], "x|y", []⟩], none, none, none, ""⟩

/-- Pipe-free radio group: one choice, label `x`, value `y`, no price. -/
def radWitA : GroupEl :=
  ⟨true, ["Mode"], none, some [⟨true, [⟨some "y", false⟩], ["x"], "x", []⟩], none, none, none, ""⟩

/-- The same group with the choice's price text changed to `+1 €`. -/
def radWitB : GroupEl :=
  ⟨true, ["Mode"], none, some [⟨true, [⟨some "y", false⟩], ["x"], "x", ["+1 €"]⟩], none, none, none, ""⟩


/-- **C7** (counterexample): the claim asserts `parseModifier("Free") ==
{absolute, 0.00}`, but `_parse_modifier "Free"` is `None` (the digit filter
leaves nothing to parse). -/
theorem parse_modifier_free_counterexample :
    _parse_modifier "Free" ≠ some ⟨ModKind.absolute, ⟨0, 2⟩⟩ ∧ _parse_modifier "Free" = none := by
  decide

/-- **C7** (amended): `_parse_modifier` strips the leading `+` and parses
`"+50%"` to a percent modifier of value 50 (comma as decimal separator),
`"+6,43 €"` to an absolute modifier of value 6.43, maps `""` to null and
`"Free"` to null (while the numeric fallback `parse_price_modifier` maps
`"Free"` to 0.00), and unparsable input yields null / 0.00 without raising. -/
theorem parse_modifier_amended :
    _parse_modifier "+50%" = some ⟨ModKind.percent, ⟨50, 0⟩⟩ ∧
    Dec.val ⟨50, 0⟩ = 50 ∧
    _parse_modifier "+0,5%" = some ⟨ModKind.percent, ⟨5, 1⟩⟩ ∧
    _parse_modifier "Free" = none ∧
    parse_price_modifier "Free" = 0 ∧
    _parse_modifier "+6,43 €" = some ⟨ModKind.absolute, ⟨643, 2⟩⟩ ∧
    Dec.val ⟨643, 2⟩ = 643 / 100 ∧
    _parse_modifier "" = none ∧
    _parse_modifier "+n/a" = none ∧
    parse_price_modifier "abc" = 0 := by
  refine ⟨by decide, ?_, by decide, by decide, by decide, by decide, ?_, by decide, by decide, by decide⟩ <;>
    norm_num [Dec.val]

/-- **C6**: with a range cluster present, `detect_slider_kind` answers `range`
exactly when the cluster has at least 2 knobs or at least 2 numeric inputs and
`slider` otherwise, and the classifier (whose range check runs before the
radio, buttons, checkbox and select checks) reports that kind for every
visible such group. -/
theorem range_slider_discrimination :
    ∀ (hsh : String → String) (group_el : GroupEl) (c : RangeCluster),
      group_el.rangeCluster = some c →
      ((detect_slider_kind group_el = "range" ↔
          2 ≤ c.knobs ∨
            2 ≤ ((c.containers.flatMap (·.inputs)).filter (fun i => i.type_ == "number")).length) ∧
        (detect_slider_kind group_el = "slider" ↔
          ¬ (2 ≤ c.knobs ∨
            2 ≤ ((c.containers.flatMap (·.inputs)).filter (fun i => i.type_ == "number")).length)) ∧
        (group_el.visible = true →
          (group_kind_and_signature hsh group_el).1 = detect_slider_kind group_el)) := by
  intro hsh g c hc
  have hd : detect_slider_kind g =
      if 2 ≤ c.knobs ∨
          2 ≤ ((c.containers.flatMap (·.inputs)).filter (fun i => i.type_ == "number")).length
      then "range" else "slider" := by
    simp only [detect_slider_kind, hc]
  refine ⟨?_, ?_, ?_⟩
  · by_cases hcond : 2 ≤ c.knobs ∨
        2 ≤ ((c.containers.flatMap (·.inputs)).filter (fun i => i.type_ == "number")).length <;>
      simp [hd, hcond]
  · by_cases hcond : 2 ≤ c.knobs ∨
        2 ≤ ((c.containers.flatMap (·.inputs)).filter (fun i => i.type_ == "number")).length <;>
      simp [hd, hcond]
  · intro hv
    simp [group_kind_and_signature, hc, hv]

/-- **C6** (witness): a concrete two-knob cluster is classified `range`. -/
theorem range_slider_discrimination_witness :
    rangeElW.rangeCluster = some ⟨2, [], []⟩ ∧ detect_slider_kind rangeElW = "range" := by
  have h := range_slider_discrimination (fun s => s) rangeElW ⟨2, [], []⟩ rfl
  exact ⟨rfl, h.1.mpr (by decide)⟩

/-- **C10**: `insert_service` never reads the input row's `game_id` column
(two rows differing only there produce identical statements and results), and
every statement it issues carries the constant `FORCE_GAME_ID = 21` as the
owning-collection id. -/
theorem insert_service_ignores_game_id :
    (∀ (fails : Nat → Bool) (conn : Conn) (row : SRow) (g : String),
        insert_service fails conn { row with game_id := g } = insert_service fails conn row) ∧
    FORCE_GAME_ID = 21 ∧
    (∀ (fails : Nat → Bool) (conn : Conn) (row : SRow),
        ∀ op ∈ ((resultConn (insert_service fails conn row)).ops.drop conn.ops.length),
          opGameId op = some FORCE_GAME_ID) := by
  refine ⟨fun fails conn row g => rfl, rfl, ?_⟩
  intro fails conn row op hop
  by_cases hn : to_nullable_str row.name = none
  · simp only [insert_service, REUSE_EXISTING_SERVICE_BY_NAME, hn] at hop
    by_cases hf : fails conn.insertCount <;>
      simp only [hf, if_true, if_false, Bool.false_eq_true, ite_false, ite_true, resultConn] at hop <;>
      simp [List.drop_left, ne_eq, not_true_eq_false, and_false, if_false] at hop <;>
      simp [hop, opGameId]
  · simp only [insert_service, REUSE_EXISTING_SERVICE_BY_NAME] at hop
    rw [if_pos ⟨trivial, hn⟩] at hop
    rcases hlk : lookupService { conn with ops := conn.ops ++ [DbOp.selectService FORCE_GAME_ID (to_nullable_str row.name)] } FORCE_GAME_ID (to_nullable_str row.name) with _ | sid
    · rw [hlk] at hop
      by_cases hf : fails conn.insertCount <;>
        simp only [hf, resultConn, ite_true, ite_false, Bool.false_eq_true] at hop <;>
        simp [List.drop_left] at hop <;>
        rcases hop with h | h <;> simp [h, opGameId]
    · rw [hlk] at hop
      simp only [resultConn] at hop
      simp [List.drop_left] at hop
      simp [hop, opGameId]

/-- **C10** (witness): on a fresh connection and a concrete row the first
issued statement is the reuse lookup with game id 21. -/
theorem insert_service_ignores_game_id_witness :
    opGameId (DbOp.selectService 21 (some "Raid")) = some FORCE_GAME_ID := by
  have h := insert_service_ignores_game_id.2.2 (fun _ => false) connW srowW
    (DbOp.selectService 21 (some "Raid")) (by decide)
  exact h

theorem foldl_preserve {σ α : Type _} (P : σ → Prop) (step : σ → α → σ)
    (l : List α) (h : ∀ s a, P s → P (step s a)) :
    ∀ s, P s → P (l.foldl step s) := by
  induction l with
  | nil => intro s hs; exact hs
  | cons x xs ih => intro s hs; exact ih _ (h s x hs)

theorem slider_child_rows_mem (now : String) (sid pid : Nat) (kind pname : String)
    (multi : Bool) (mn mx : Option Int) (dvs : List String) :
    ∀ (l : List (Nat × String)) (oid disp : Nat) (r : Row),
      r ∈ slider_child_rows now sid pid kind pname multi mn mx dvs l oid disp →
      r.parent_option_id = some pid ∧ r.option_type = kind ++ "_value" := by
  intro l
  induction l with
  | nil => intro oid disp r hr; simp [slider_child_rows] at hr
  | cons x xs ih =>
    intro oid disp r hr
    obtain ⟨i, lab⟩ := x
    simp only [slider_child_rows, List.mem_cons] at hr
    rcases hr with h | h
    · subst h; exact ⟨rfl, rfl⟩
    · exact ih _ _ r h

theorem radio_child_rows_mem (now : String) (sid pid : Nat) (label : String) :
    ∀ (l : List RadioOption) (oid disp : Nat) (r : Row),
      r ∈ (radio_child_rows now sid pid label l oid disp).2.2.1 →
      r.parent_option_id = some pid ∧ r.option_type = "radio" := by
  intro l
  induction l with
  | nil => intro oid disp r hr; simp [radio_child_rows] at hr
  | cons ro rest ih =>
    intro oid disp r hr
    by_cases hv : ro.visible
    · rcases hh : ro.inputs.head? with _ | inp
      · simp only [radio_child_rows, hv, hh, if_true] at hr
        exact ih _ _ r hr
      · simp only [radio_child_rows, hv, hh, if_true, List.mem_cons] at hr
        rcases hr with h | h
        · subst h; exact ⟨rfl, rfl⟩
        · exact ih _ _ r h
    · simp only [radio_child_rows, hv] at hr
      simp at hr
      exact ih _ _ r hr

theorem button_child_rows_mem (now : String) (sid pid : Nat) (label : String) :
    ∀ (l : List ButtonOption) (oid disp : Nat) (r : Row),
      r ∈ (button_child_rows now sid pid label l oid disp).2.2 →
      r.parent_option_id = some pid ∧ r.option_type = "radio" := by
  intro l
  induction l with
  | nil => intro oid disp r hr; simp [button_child_rows] at hr
  | cons b rest ih =>
    intro oid disp r hr
    by_cases hv : b.visible
    · simp only [button_child_rows, hv, if_true, List.mem_cons] at hr
      rcases hr with h | h
      · subst h; exact ⟨rfl, rfl⟩
      · exact ih _ _ r h
    · simp only [button_child_rows, hv] at hr
      simp at hr
      exact ih _ _ r hr

theorem button_group_rows_mem (now : String) (sid pid : Nat) (label : String) :
    ∀ (l : List (List ButtonOption)) (oid disp : Nat) (r : Row),
      r ∈ (button_group_rows now sid pid label l oid disp).2.2 →
      r.parent_option_id = some pid ∧ r.option_type = "radio" := by
  intro l
  induction l with
  | nil => intro oid disp r hr; simp [button_group_rows] at hr
  | cons bg rest ih =>
    intro oid disp r hr
    simp only [button_group_rows, List.mem_append] at hr
    rcases hr with h | h
    · exact button_child_rows_mem now sid pid label bg _ _ r h
    · exact ih _ _ r h

theorem checkbox_child_rows_mem (now : String) (sid pid : Nat) (label : String) :
    ∀ (l : List CheckboxOption) (oid disp : Nat) (r : Row),
      r ∈ (checkbox_child_rows now sid pid label l oid disp).2.2 →
      r.parent_option_id = some pid ∧ r.option_type = "checkbox" := by
  intro l
  induction l with
  | nil => intro oid disp r hr; simp [checkbox_child_rows] at hr
  | cons co rest ih =>
    intro oid disp r hr
    by_cases hv : co.visible
    · rcases hh : co.inputs.head? with _ | chk
      · simp only [checkbox_child_rows, hv, hh, if_true] at hr
        exact ih _ _ r hr
      · simp only [checkbox_child_rows, hv, hh, if_true, List.mem_cons] at hr
        rcases hr with h | h
        · subst h; exact ⟨rfl, rfl⟩
        · exact ih _ _ r h
    · simp only [checkbox_child_rows, hv] at hr
      simp at hr
      exact ih _ _ r hr

theorem select_child_rows_mem (now : String) (sid pid : Nat) (label : String) :
    ∀ (l : List SelectOpt) (oid disp : Nat) (r : Row),
      r ∈ (select_child_rows now sid pid label l oid disp).2.2 →
      r.parent_option_id = some pid ∧ r.option_type = "dropdown" := by
  intro l
  induction l with
  | nil => intro oid disp r hr; simp [select_child_rows] at hr
  | cons o rest ih =>
    intro oid disp r hr
    simp only [select_child_rows, List.mem_cons] at hr
    rcases hr with h | h
    · subst h; exact ⟨rfl, rfl⟩
    · exact ih _ _ r h

theorem parse_group_block (now : String) (el : GroupEl) (kind label : String)
    (par : Option Nat) (sid oid disp : Nat) :
    (parse_group_to_rows_fixed now el kind label par sid oid disp).2.2.2 = [] ∨
    ∃ pr children,
      (parse_group_to_rows_fixed now el kind label par sid oid disp).2.2.2 = pr :: children ∧
      pr.parent_option_id = par ∧ pr.option_value = none ∧ pr.option_id = oid ∧
      pr.option_type ∈ rawVocab ∧
      (∀ r ∈ children, r.parent_option_id = some oid ∧ r.option_type ∈ rawVocab) := by
  by_cases h1 : kind = "slider" ∨ kind = "range"
  · refine Or.inr ?_
    simp only [parse_group_to_rows_fixed, h1, if_true]
    simp only [write_slider_or_range]
    refine ⟨_, _, rfl, ?_, ?_, ?_, ?_, ?_⟩
    · rfl
    · rfl
    · rfl
    · rcases h1 with h | h <;> subst h <;> simp [rawVocab]
    · intro r hr
      have hc := slider_child_rows_mem _ _ _ _ _ _ _ _ _ _ _ _ r hr
      refine ⟨hc.1, ?_⟩
      rw [hc.2]
      rcases h1 with h | h <;> subst h <;> decide
  · by_cases h2 : kind = "radio"
    · refine Or.inr ?_
      simp only [parse_group_to_rows_fixed, h1, h2, if_true, if_false]
      simp only [write_radios]
      refine ⟨_, _, rfl, ?_, ?_, ?_, ?_, ?_⟩
      · rfl
      · rfl
      · rfl
      · simp [rawVocab]
      · intro r hr
        have hc := radio_child_rows_mem _ _ _ _ _ _ _ r hr
        exact ⟨hc.1, by rw [hc.2]; decide⟩
    · by_cases h3 : kind = "buttons"
      · refine Or.inr ?_
        simp only [parse_group_to_rows_fixed, h1, h2, h3, if_true, if_false]
        simp only [write_buttons_as_radio]
        refine ⟨_, _, rfl, ?_, ?_, ?_, ?_, ?_⟩
        · rfl
        · rfl
        · rfl
        · simp [rawVocab]
        · intro r hr
          have hc := button_group_rows_mem _ _ _ _ _ _ _ r hr
          exact ⟨hc.1, by rw [hc.2]; decide⟩
      · by_cases h4 : kind = "checkbox"
        · refine Or.inr ?_
          simp only [parse_group_to_rows_fixed, h1, h2, h3, h4, if_true, if_false]
          simp only [write_checkboxes]
          refine ⟨_, _, rfl, ?_, ?_, ?_, ?_, ?_⟩
          · rfl
          · rfl
          · rfl
          · simp [rawVocab]
          · intro r hr
            have hc := checkbox_child_rows_mem _ _ _ _ _ _ _ r hr
            exact ⟨hc.1, by rw [hc.2]; decide⟩
        · by_cases h5 : kind = "select"
          · simp only [parse_group_to_rows_fixed, h1, h2, h3, h4, h5, if_true, if_false]
            rcases hs : el.selectEl with _ | opts
            · refine Or.inr ⟨_, _, rfl, ?_, ?_, ?_, ?_, ?_⟩
              · rfl
              · rfl
              · rfl
              · simp [rawVocab]
              · intro r hr; simp at hr
            · refine Or.inr ⟨_, _, rfl, ?_, ?_, ?_, ?_, ?_⟩
              · rfl
              · rfl
              · rfl
              · simp [rawVocab]
              · intro r hr
                have hc := select_child_rows_mem _ _ _ _ _ _ _ r hr
                exact ⟨hc.1, by rw [hc.2]; decide⟩
          · simp only [parse_group_to_rows_fixed, h1, h2, h3, h4, h5, if_false]
            exact Or.inl trivial

theorem rescanStep_cases (hsh : String → String) (now : String) (sid pid : Nat)
    (st : ExtState) (og : OuterGroup) :
    rescanStep hsh now sid pid st og = st ∨
    ∃ el kind label sig,
      og.visible = true ∧ og.inner.head? = some el ∧
      group_kind_and_signature hsh el = (kind, label, sig) ∧
      ¬ (kind = "radio" ∧ pyLower (pyStrip label) = "difficulty") ∧
      (dictLookup st.sigs (kind, label) = none ∨
        ∃ b, dictLookup st.sigs (kind, label) = some b ∧ ¬ (b ≠ "" ∧ b = sig)) ∧
      rescanStep hsh now sid pid st og =
        { rows := st.rows ++
            (parse_group_to_rows_fixed now el kind label (some pid) sid st.oid st.disp).2.2.2,
          oid := (parse_group_to_rows_fixed now el kind label (some pid) sid st.oid st.disp).1,
          disp := (parse_group_to_rows_fixed now el kind label (some pid) sid st.oid st.disp).2.1,
          sigs := dictInsert st.sigs (kind, label) sig } := by
  by_cases hv : og.visible = true
  · rcases hh : og.inner.head? with _ | el
    · left; simp only [rescanStep, hv, if_true, hh]
    · rcases hcl : group_kind_and_signature hsh el with ⟨kind, label, sig⟩
      by_cases hd : kind = "radio" ∧ pyLower (pyStrip label) = "difficulty"
      · left
        simp only [rescanStep, hv, if_true, hh, hcl]
        rw [if_pos hd]
      · rcases hlk : dictLookup st.sigs (kind, label) with _ | b
        · refine Or.inr ⟨el, kind, label, sig, hv, ?_, ?_, hd, ?_, ?_⟩
          · rfl
          · exact hcl
          · exact Or.inl hlk
          · simp only [rescanStep, hv, if_true, hh, hcl, hlk]
            rw [if_neg hd]
        · by_cases hbs : b ≠ "" ∧ b = sig
          · left
            simp only [rescanStep, hv, if_true, hh, hcl, hlk]
            rw [if_neg hd, if_pos hbs]
          · refine Or.inr ⟨el, kind, label, sig, hv, ?_, ?_, hd, ?_, ?_⟩
            · rfl
            · exact hcl
            · exact Or.inr ⟨b, hlk, hbs⟩
            · simp only [rescanStep, hv, if_true, hh, hcl, hlk]
              rw [if_neg hd, if_neg hbs]
  · left
    simp only [rescanStep]
    rw [if_neg hv]

theorem rescanStep_pointwise (hsh : String → String) (now : String) (sid pid : Nat)
    (P : Row → Prop)
    (hP : ∀ el kind label par oid disp r,
        r ∈ (parse_group_to_rows_fixed now el kind label par sid oid disp).2.2.2 → P r) :
    ∀ (st : ExtState) (og : OuterGroup), (∀ r ∈ st.rows, P r) →
      ∀ r ∈ (rescanStep hsh now sid pid st og).rows, P r := by
  intro st og hQ r hr
  rcases rescanStep_cases hsh now sid pid st og with h | ⟨el, kind, label, sig, _, _, _, _, _, heq⟩
  · rw [h] at hr; exact hQ r hr
  · rw [heq] at hr
    rcases List.mem_append.mp hr with h | h
    · exact hQ r h
    · exact hP _ _ _ _ _ _ r h

theorem extract_rows_pointwise (hsh : String → String) (now : String) (page : Page)
    (so sid : Nat) (P : Row → Prop)
    (hP : ∀ el kind label par oid disp r,
        r ∈ (parse_group_to_rows_fixed now el kind label par sid oid disp).2.2.2 → P r) :
    ∀ r ∈ extract_options_with_snapshots_fixed hsh now page so sid, P r := by
  have hbase : ∀ (l : List (GroupEl × String × String × String)) (st : ExtState),
      (∀ q ∈ st.rows, P q) → ∀ q ∈ (l.foldl (baselineWriteStep now sid) st).rows, P q := by
    intro l st hst
    refine foldl_preserve (fun s => ∀ q ∈ s.rows, P q) _ l ?_ st hst
    intro s g hs q hq
    unfold baselineWriteStep at hq
    simp only at hq
    rcases List.mem_append.mp hq with h | h
    · exact hs q h
    · exact hP _ _ _ _ _ _ q h
  have htrig : ∀ (ivs : List (Nat × String)) (rvMap : List (String × Nat)) (st : ExtState),
      (∀ q ∈ st.rows, P q) →
      ∀ q ∈ (ivs.foldl (triggerStep hsh now sid page rvMap) st).rows, P q := by
    intro ivs rvMap st hst
    refine foldl_preserve (fun s => ∀ q ∈ s.rows, P q) _ ivs ?_ st hst
    intro s iv hs
    unfold triggerStep
    rcases hlk2 : dictLookup rvMap iv.2 with _ | pid
    · simp only [hlk2]; exact hs
    · simp only [hlk2]
      by_cases hz : pid = 0
      · simp only [hz, if_true]; exact hs
      · rw [if_neg hz]
        by_cases hck : page.clickOk iv.1 = true
        · rw [if_pos hck]
          exact foldl_preserve (fun s' => ∀ q ∈ s'.rows, P q) _ _
            (fun s' og hs' => rescanStep_pointwise hsh now sid _ P hP s' og hs') s hs
        · rw [if_neg hck]; exact hs
  intro r hr
  unfold extract_options_with_snapshots_fixed at hr
  by_cases hc : page.hasContainer = true
  · simp only [hc, if_true] at hr
    rcases hfind : (scan_visible_groups hsh page.baseline).find?
        (fun g => g.2.1 == "radio" && pyLower (pyStrip g.2.2.1) == "difficulty") with _ | dg
    · rw [hfind] at hr
      exact hbase _ _ (by intro q hq; simp at hq) r hr
    · rw [hfind] at hr
      exact htrig _ _ _ (hbase _ _ (by intro q hq; simp at hq)) r hr
  · rw [if_neg hc] at hr
    simp at hr

theorem extract_types_raw (hsh : String → String) (now : String) (page : Page)
    (so sid : Nat) :
    ∀ r ∈ extract_options_with_snapshots_fixed hsh now page so sid,
      r.option_type ∈ rawVocab := by
  refine extract_rows_pointwise hsh now page so sid _ ?_
  intro el kind label par oid disp q hq
  rcases parse_group_block now el kind label par sid oid disp with h | ⟨pr, children, hbl, _, _, _, hprt, hch⟩
  · rw [h] at hq; simp at hq
  · rw [hbl] at hq
    rcases List.mem_cons.mp hq with h | h
    · rw [h]; exact hprt
    · exact (hch q h).2

/-- **C3**: after one extraction pass followed by normalization, every row's
`option_type` lies in the persisted vocabulary
`slider / range / radio / checkbox / dropdown`. -/
theorem option_type_vocabulary_closure (hsh : String → String) (now : String) (page : Page)
    (startOptionId service_id : Nat) :
    ∀ r ∈ normalize_option_types_in_rows
        (extract_options_with_snapshots_fixed hsh now page startOptionId service_id),
      r.option_type ∈ persistedVocab := by
  intro r hr
  unfold normalize_option_types_in_rows at hr
  rcases List.mem_map.mp hr with ⟨r0, hr0, hmap⟩
  have hraw : r0.option_type ∈ rawVocab := extract_types_raw hsh now page _ _ r0 hr0
  have hv : ∀ t ∈ rawVocab, normalizeType t ∈ persistedVocab := by decide
  rw [← hmap]
  exact hv _ hraw

/-- **C3** (witness): the first row of a concrete extracted and normalized
batch has a persisted option type. -/
theorem option_type_vocabulary_closure_witness :
    ((normalize_option_types_in_rows
        (extract_options_with_snapshots_fixed (fun s => s) "T" pageW 1 7)).getD 0 default).option_type
      ∈ persistedVocab :=
  option_type_vocabulary_closure (fun s => s) "T" pageW 1 7 _ (by decide)

theorem normalizeType_ne_button (t : String) :
    normalizeType t ≠ "button" ∧ normalizeType t ≠ "buttons" := by
  have key : ∀ (u : String), (if u = "button" ∨ u = "buttons" then "radio" else u) ≠ "button" ∧
      (if u = "button" ∨ u = "buttons" then "radio" else u) ≠ "buttons" := by
    intro u
    split_ifs with h
    · exact ⟨by decide, by decide⟩
    · push_neg at h
      exact ⟨h.1, h.2⟩
  simpa only [normalizeType] using
    key (if pyEndsWith (pyStrip t) "_value" = true then pyDropRight (pyStrip t) 6 else pyStrip t)

theorem normalizeType_idem (t : String)
    (h1 : pyStrip (normalizeType t) = normalizeType t)
    (h2 : pyEndsWith (normalizeType t) "_value" = false) :
    normalizeType (normalizeType t) = normalizeType t := by
  have hb := normalizeType_ne_button t
  generalize hu : normalizeType t = u at h1 h2 hb ⊢
  simp only [normalizeType, h1, h2]
  simp [hb.1, hb.2]

theorem normalize_idem_on (rows : List Row)
    (h : ∀ r ∈ rows, pyStrip (normalizeType r.option_type) = normalizeType r.option_type ∧
        pyEndsWith (normalizeType r.option_type) "_value" = false) :
    normalize_option_types_in_rows (normalize_option_types_in_rows rows) =
      normalize_option_types_in_rows rows := by
  induction rows with
  | nil => rfl
  | cons r rest ih =>
    have hr := h r (List.mem_cons_self r rest)
    have hrest := ih fun q hq => h q (List.mem_cons_of_mem r hq)
    simp only [normalize_option_types_in_rows, List.map_cons] at hrest ⊢
    rw [List.cons.injEq]
    refine ⟨?_, hrest⟩
    show ({ r with option_type := normalizeType (normalizeType r.option_type) } : Row) =
      { r with option_type := normalizeType r.option_type }
    rw [normalizeType_idem r.option_type hr.1 hr.2]

/-- **C8** (counterexample): `normalize_option_types_in_rows` is not idempotent
on every list of rows — a row whose option type is `"slider_value_value"`
loses one `_value` suffix per application. -/
theorem normalize_idempotent_counterexample :
    normalize_option_types_in_rows (normalize_option_types_in_rows
        [{ (default : Row) with option_type := "slider_value_value" }]) ≠
      normalize_option_types_in_rows [{ (default : Row) with option_type := "slider_value_value" }] := by
  decide

/-- **C8** (amended): `normalize(normalize(rows)) = normalize(rows)` for every
list of rows whose once-normalized option types are trimmed and do not still
end in `_value`; in particular for every batch an extraction pass emits. -/
theorem normalize_idempotent_amended :
    (∀ (rows : List Row),
        (∀ r ∈ rows, pyStrip (normalizeType r.option_type) = normalizeType r.option_type ∧
          pyEndsWith (normalizeType r.option_type) "_value" = false) →
        normalize_option_types_in_rows (normalize_option_types_in_rows rows) =
          normalize_option_types_in_rows rows) ∧
    (∀ (hsh : String → String) (now : String) (page : Page) (startOptionId service_id : Nat),
        normalize_option_types_in_rows (normalize_option_types_in_rows
            (extract_options_with_snapshots_fixed hsh now page startOptionId service_id)) =
          normalize_option_types_in_rows
            (extract_options_with_snapshots_fixed hsh now page startOptionId service_id)) := by
  constructor
  · exact normalize_idem_on
  · intro hsh now page so sid
    apply normalize_idem_on
    intro r hr
    have hraw : r.option_type ∈ rawVocab := extract_types_raw hsh now page _ _ r hr
    have hcond : ∀ t ∈ rawVocab, pyStrip (normalizeType t) = normalizeType t ∧
        pyEndsWith (normalizeType t) "_value" = false := by decide
    exact hcond _ hraw

/-- **C8** (witness): idempotence on a concrete already-safe row list. -/
theorem normalize_idempotent_amended_witness :
    normalize_option_types_in_rows (normalize_option_types_in_rows
        [{ (default : Row) with option_type := "radio" }]) =
      normalize_option_types_in_rows [{ (default : Row) with option_type := "radio" }] :=
  normalize_idempotent_amended.1 _ (by decide)

theorem foldl_mem_preserve {σ α : Type _} (P : σ → Prop) (step : σ → α → σ) :
    ∀ (l : List α), (∀ s a, a ∈ l → P s → P (step s a)) → ∀ s, P s → P (l.foldl step s) := by
  intro l
  induction l with
  | nil => intro _ s hs; exact hs
  | cons x xs ih =>
    intro h s hs
    exact ih (fun s' a ha => h s' a (List.mem_cons_of_mem x ha)) _ (h s x (List.mem_cons_self x xs) hs)

theorem dictLookup_mem {κ ν : Type} [DecidableEq κ] (m : List (κ × ν)) (k : κ) (v : ν) :
    dictLookup m k = some v → (k, v) ∈ m := by
  intro h
  unfold dictLookup at h
  rcases hf : m.find? (fun p => p.1 == k) with _ | p
  · rw [hf] at h; simp at h
  · rw [hf] at h
    have hp := List.find?_some hf
    have hm := List.mem_of_find?_eq_some hf
    obtain ⟨p1, p2⟩ := p
    simp only [beq_iff_eq] at hp
    simp only [Option.map, Option.some.injEq] at h
    subst hp
    subst h
    exact hm

theorem mem_dictInsert {κ ν : Type} [DecidableEq κ] (m : List (κ × ν)) (k k' : κ) (v w : ν) :
    (k', w) ∈ dictInsert m k v → (k', w) = (k, v) ∨ (k', w) ∈ m := by
  unfold dictInsert
  split_ifs with h
  · intro hm
    rcases List.mem_map.mp hm with ⟨p, hp, he⟩
    by_cases hpk : p.1 = k
    · rw [if_pos hpk] at he
      exact Or.inl he.symm
    · rw [if_neg hpk] at he
      exact Or.inr (he ▸ hp)
  · intro hm
    rcases List.mem_append.mp hm with h1 | h1
    · exact Or.inr h1
    · simp only [List.mem_singleton] at h1
      exact Or.inl h1

theorem buildRadioValueMap_values (sid : Nat) (rows : List Row) :
    ∀ v pid, dictLookup (buildRadioValueMap sid rows) v = some pid →
      ∃ r ∈ rows, r.option_id = pid ∧ r.option_type = "radio" ∧ r.service_id = sid ∧
        pyStartsWith r.option_name "difficulty_" = true ∧ pyStrOpt r.option_value = v := by
  have key : ∀ (m : List (String × Nat)),
      (∀ v pid, (v, pid) ∈ m → ∃ r ∈ rows, r.option_id = pid ∧ r.option_type = "radio" ∧
        r.service_id = sid ∧ pyStartsWith r.option_name "difficulty_" = true ∧
        pyStrOpt r.option_value = v) →
      ∀ v pid, (v, pid) ∈ rows.foldl (fun m r =>
          if r.option_type = "radio" ∧ r.service_id = sid ∧
              pyStartsWith r.option_name "difficulty_" = true then
            dictInsert m (pyStrOpt r.option_value) r.option_id
          else m) m →
        ∃ r ∈ rows, r.option_id = pid ∧ r.option_type = "radio" ∧ r.service_id = sid ∧
          pyStartsWith r.option_name "difficulty_" = true ∧ pyStrOpt r.option_value = v := by
    intro m hm v pid hmem
    refine foldl_mem_preserve
      (fun mq => ∀ vq pidq, (vq, pidq) ∈ mq → ∃ r ∈ rows, r.option_id = pidq ∧
        r.option_type = "radio" ∧ r.service_id = sid ∧
        pyStartsWith r.option_name "difficulty_" = true ∧ pyStrOpt r.option_value = vq)
      _ rows ?_ m hm v pid hmem
    intro mq r hr hmq vq pidq hmemq
    by_cases hc : r.option_type = "radio" ∧ r.service_id = sid ∧
        pyStartsWith r.option_name "difficulty_" = true
    · rw [if_pos hc] at hmemq
      rcases mem_dictInsert _ _ _ _ _ hmemq with he | he
      · rw [Prod.mk.injEq] at he
        exact ⟨r, hr, he.2.symm, hc.1, hc.2.1, hc.2.2, he.1.symm⟩
      · exact hmq vq pidq he
    · rw [if_neg hc] at hmemq
      exact hmq vq pidq hmemq
  intro v pid hlk
  exact key [] (by intro vq pidq h; simp at h) v pid (dictLookup_mem _ _ _ hlk)

theorem parentsEarlier_append (rows block : List Row)
    (hrows : ParentsEarlier rows)
    (hblock : block = [] ∨ ∃ pr children, block = pr :: children ∧
        (∀ p, pr.parent_option_id = some p → ∃ q ∈ rows, q.option_id = p) ∧
        (∀ c ∈ children, c.parent_option_id = some pr.option_id)) :
    ParentsEarlier (rows ++ block) := by
  rcases hblock with h | ⟨pr, children, hb, hpr, hch⟩
  · subst h; simpa using hrows
  · subst hb
    intro i p hi hp
    by_cases h1 : i < rows.length
    · rw [List.getD_append _ _ _ _ h1] at hp
      rcases hrows i p h1 hp with ⟨q, hq, hid⟩
      refine ⟨q, ?_, hid⟩
      rw [List.take_append_of_le_length (le_of_lt h1)]
      exact hq
    · push_neg at h1
      rw [List.getD_append_right _ _ _ _ h1] at hp
      by_cases h2 : i = rows.length
      · subst h2
        rw [Nat.sub_self, List.getD_cons_zero] at hp
        rcases hpr p hp with ⟨q, hq, hid⟩
        refine ⟨q, ?_, hid⟩
        rw [List.take_append_of_le_length (le_refl _), List.take_of_length_le (le_refl _)]
        exact hq
      · have h3 : rows.length < i := lt_of_le_of_ne h1 (Ne.symm h2)
        have h4 : i - rows.length = (i - rows.length - 1) + 1 := by omega
        rw [h4, List.getD_cons_succ] at hp
        have h5 : i - rows.length - 1 < children.length := by
          simp only [List.length_append, List.length_cons] at hi
          omega
        have hcm : children.getD (i - rows.length - 1) default ∈ children := by
          rw [List.getD_eq_getElem _ _ h5]
          exact List.getElem_mem h5
        have hpc := hch _ hcm
        rw [hpc] at hp
        obtain rfl : pr.option_id = p := by simpa using hp
        refine ⟨pr, ?_, rfl⟩
        rw [List.take_append_eq_append_take]
        refine List.mem_append_right _ ?_
        rw [h4, List.take_succ_cons]
        exact List.mem_cons_self _ _

/-- **C4**: in every batch one extraction pass produces, each non-null
`parent_option_id` is the `option_id` of a strictly earlier row of the batch,
and every row with a null parent is a group row (its `option_value` is null,
the spec's marker for the axis row). -/
theorem batch_tree_integrity (hsh : String → String) (now : String) (page : Page)
    (startOptionId service_id : Nat) :
    ParentsEarlier (extract_options_with_snapshots_fixed hsh now page startOptionId service_id) ∧
    (∀ r ∈ extract_options_with_snapshots_fixed hsh now page startOptionId service_id,
      r.parent_option_id = none → r.option_value = none) := by
  have hbase : ∀ (l : List (GroupEl × String × String × String)) (st : ExtState),
      ParentsEarlier st.rows →
      ParentsEarlier ((l.foldl (baselineWriteStep now service_id) st).rows) := by
    intro l st hst
    refine foldl_preserve (fun s => ParentsEarlier s.rows) _ l ?_ st hst
    intro s g hs
    unfold baselineWriteStep
    simp only
    refine parentsEarlier_append _ _ hs ?_
    rcases parse_group_block now g.1 g.2.1 g.2.2.1 none service_id s.oid s.disp with
      h | ⟨pr, ch, hbl, hpar, hval, hoid, _, hch⟩
    · exact Or.inl h
    · refine Or.inr ⟨pr, ch, hbl, ?_, ?_⟩
      · intro p hp; rw [hpar] at hp; cases hp
      · intro c hcm; rw [hoid]; exact (hch c hcm).1
  have hrescan : ∀ (pid : Nat) (rvMap : List (String × Nat)) (s : ExtState) (og : OuterGroup),
      (ParentsEarlier s.rows ∧
        ∀ v pid', dictLookup rvMap v = some pid' → ∃ q ∈ s.rows, q.option_id = pid') →
      (∃ q ∈ s.rows, q.option_id = pid) →
      (ParentsEarlier (rescanStep hsh now service_id pid s og).rows ∧
        ∀ v pid', dictLookup rvMap v = some pid' →
          ∃ q ∈ (rescanStep hsh now service_id pid s og).rows, q.option_id = pid') := by
    intro pid rvMap s og hQ hpid
    rcases rescanStep_cases hsh now service_id pid s og with h | ⟨el, kind, label, sig, _, _, _, _, _, heq⟩
    · rw [h]; exact hQ
    · rw [heq]
      constructor
      · simp only
        refine parentsEarlier_append _ _ hQ.1 ?_
        rcases parse_group_block now el kind label (some pid) service_id s.oid s.disp with
          h | ⟨pr, ch, hbl, hpar, hval, hoid, _, hch⟩
        · exact Or.inl h
        · refine Or.inr ⟨pr, ch, hbl, ?_, ?_⟩
          · intro p hp
            rw [hpar] at hp
            obtain rfl : pid = p := by simpa using hp
            exact hpid
          · intro c hcm; rw [hoid]; exact (hch c hcm).1
      · intro v pid' hl
        rcases hQ.2 v pid' hl with ⟨q, hq, hid⟩
        exact ⟨q, List.mem_append_left _ hq, hid⟩
  have htrig : ∀ (rvMap : List (String × Nat)) (ivs : List (Nat × String)) (s : ExtState),
      (ParentsEarlier s.rows ∧
        ∀ v pid', dictLookup rvMap v = some pid' → ∃ q ∈ s.rows, q.option_id = pid') →
      ParentsEarlier ((ivs.foldl (triggerStep hsh now service_id page rvMap) s).rows) := by
    intro rvMap ivs s hs
    refine (foldl_preserve (fun s' => ParentsEarlier s'.rows ∧
      ∀ v pid', dictLookup rvMap v = some pid' → ∃ q ∈ s'.rows, q.option_id = pid')
      _ ivs ?_ s hs).1
    intro s' iv hs'
    unfold triggerStep
    rcases hlk : dictLookup rvMap iv.2 with _ | pid
    · simp only [hlk]; exact hs'
    · simp only [hlk]
      by_cases hz : pid = 0
      · simp only [hz, if_true]; exact hs'
      · rw [if_neg hz]
        by_cases hck : page.clickOk iv.1 = true
        · rw [if_pos hck]
          refine foldl_preserve (fun s'' => ParentsEarlier s''.rows ∧
            ∀ v pid', dictLookup rvMap v = some pid' →
              ∃ q ∈ s''.rows, q.option_id = pid') _ _ ?_ s' hs'
          intro s'' og hs''
          exact hrescan pid rvMap s'' og hs'' (hs''.2 iv.2 pid hlk)
        · rw [if_neg hck]; exact hs'
  constructor
  · unfold extract_options_with_snapshots_fixed
    by_cases hc : page.hasContainer = true
    · simp only [hc, if_true]
      rcases hfind : (scan_visible_groups hsh page.baseline).find?
          (fun g => g.2.1 == "radio" && pyLower (pyStrip g.2.2.1) == "difficulty") with _ | dg
      · rw [hfind]
        exact hbase _ _ (by intro i p hi _; simp at hi)
      · rw [hfind]
        refine htrig _ _ _ ⟨hbase _ _ (by intro i p hi _; simp at hi), ?_⟩
        intro v pid hl
        rcases buildRadioValueMap_values service_id _ v pid hl with ⟨q, hq, hid, _⟩
        exact ⟨q, hq, hid⟩
    · rw [if_neg hc]
      intro i p hi _
      simp at hi
  · refine extract_rows_pointwise hsh now page _ _ _ ?_
    intro el kind label par oid disp q hq
    rcases parse_group_block now el kind label par service_id oid disp with
      h | ⟨pr, ch, hbl, hpar, hval, hoid, _, hch⟩
    · rw [h] at hq; simp at hq
    · rw [hbl] at hq
      rcases List.mem_cons.mp hq with h | h
      · subst h; intro _; exact hval
      · intro hnone
        rw [(hch q h).1] at hnone
        cases hnone

/-- **C4** (witness): in a concrete batch the parent referenced by the fourth
row exists among the first three rows. -/
theorem batch_tree_integrity_witness :
    ∃ q ∈ (extract_options_with_snapshots_fixed (fun s => s) "T" pageW 1 7).take 3,
      q.option_id = 3 :=
  (batch_tree_integrity (fun s => s) "T" pageW 1 7).1 3 3 (by decide) (by decide)

/-- **C2**: in the per-trigger rescan loop, a rescanned visible group other
than the Difficulty trigger group is skipped entirely (no state change) when
its newly computed signature equals the (never empty) signature recorded for
its `(kind, label)` key; when the key is unrecorded or the signature differs,
its rows are written via `parse_group_to_rows_fixed` with
`parent_option_id = some pid` — the batch row id of the specific trigger
choice `v` just selected, as the second conjunct characterizes — and the
recorded signature for the key is updated to the new value. -/
theorem rescan_diff_suppression :
    (∀ (hsh : String → String) (now : String) (sid pid : Nat) (st : ExtState) (og : OuterGroup)
        (el : GroupEl) (kind label sig : String),
      og.visible = true → og.inner.head? = some el →
      group_kind_and_signature hsh el = (kind, label, sig) →
      ¬ (kind = "radio" ∧ pyLower (pyStrip label) = "difficulty") →
      (∀ b, dictLookup st.sigs (kind, label) = some b → b ≠ "") →
      ((∀ b, dictLookup st.sigs (kind, label) = some b → b = sig →
          rescanStep hsh now sid pid st og = st) ∧
        ((dictLookup st.sigs (kind, label) = none ∨
            (∃ b, dictLookup st.sigs (kind, label) = some b ∧ b ≠ sig)) →
          rescanStep hsh now sid pid st og =
            { rows := st.rows ++
                (parse_group_to_rows_fixed now el kind label (some pid) sid st.oid st.disp).2.2.2,
              oid := (parse_group_to_rows_fixed now el kind label (some pid) sid st.oid st.disp).1,
              disp := (parse_group_to_rows_fixed now el kind label (some pid) sid st.oid st.disp).2.1,
              sigs := dictInsert st.sigs (kind, label) sig }))) ∧
    (∀ (sid : Nat) (rows : List Row) (v : String) (pid : Nat),
        dictLookup (buildRadioValueMap sid rows) v = some pid →
        ∃ r ∈ rows, r.option_id = pid ∧ r.option_type = "radio" ∧
          pyStartsWith r.option_name "difficulty_" = true ∧ pyStrOpt r.option_value = v) := by
  constructor
  · intro hsh now sid pid st og el kind label sig hv hh hcl hd hne
    constructor
    · intro b hb hbsig
      simp only [rescanStep, hv, if_true, hh, hcl, hb]
      rw [if_neg hd, if_pos ⟨hne b hb, hbsig⟩]
    · intro hcase
      rcases hcase with hnone | ⟨b, hb, hbne⟩
      · simp only [rescanStep, hv, if_true, hh, hcl, hnone]
        rw [if_neg hd]
      · simp only [rescanStep, hv, if_true, hh, hcl, hb]
        rw [if_neg hd, if_neg (fun hcontra => hbne hcontra.2)]
  · intro sid rows v pid hl
    rcases buildRadioValueMap_values sid rows v pid hl with ⟨r, hr, hid, ht, _, hn, hval⟩
    exact ⟨r, hr, hid, ht, hn, hval⟩

/-- **C2** (witness): a concrete rescanned checkbox group whose signature
matches the recorded one is skipped without any state change. -/
theorem rescan_diff_suppression_witness :
    rescanStep (fun _ => "S") "T" 7 3
        ⟨[], 5, 9, [(("checkbox", "Hardcore Extras"), "S")]⟩ ⟨true, [ckElW]⟩ =
      ⟨[], 5, 9, [(("checkbox", "Hardcore Extras"), "S")]⟩ := by
  refine (rescan_diff_suppression.1 (fun _ => "S") "T" 7 3
      ⟨[], 5, 9, [(("checkbox", "Hardcore Extras"), "S")]⟩ ⟨true, [ckElW]⟩
      ckElW "checkbox" "Hardcore Extras" "S" rfl rfl ?_ ?_ ?_).1 "S" ?_ rfl
  · decide
  · decide
  · intro b hb
    have h2 : some b = some "S" := by rw [← hb]; decide
    obtain rfl : b = "S" := (Option.some.inj h2).symm ▸ rfl
    decide
  · decide

theorem sepSplit_inj : ∀ (a b r s : List Char), '|' ∉ a → '|' ∉ b →
    a ++ '|' :: r = b ++ '|' :: s → a = b ∧ r = s := by
  intro a
  induction a with
  | nil =>
    intro b r s _ hb h
    cases b with
    | nil => simpa using h
    | cons c bs =>
      simp only [List.nil_append, List.cons_append, List.cons.injEq] at h
      exact absurd (by rw [h.1]; exact List.mem_cons_self _ _) hb
  | cons x xs ih =>
    intro b r s ha hb h
    cases b with
    | nil =>
      simp only [List.cons_append, List.nil_append, List.cons.injEq] at h
      exact absurd (by rw [← h.1]; exact List.mem_cons_self _ _) ha
    | cons y bs =>
      simp only [List.cons_append, List.cons.injEq] at h
      obtain ⟨rfl, h2⟩ := h
      have ha' : '|' ∉ xs := fun hm => ha (List.mem_cons_of_mem _ hm)
      have hb' : '|' ∉ bs := fun hm => hb (List.mem_cons_of_mem _ hm)
      obtain ⟨h3, h4⟩ := ih bs r s ha' hb' h2
      exact ⟨by rw [h3], h4⟩

theorem renderItem_data (t : String × String × String) :
    (renderItem t).data = renderItemL t := by
  have hp : ("|" : String).data = ['|'] := by decide
  simp [renderItem, renderItemL, String.data_append, hp, List.append_assoc]

theorem pyJoin_render_data (ts : List (String × String × String)) :
    (pyJoin "||" (ts.map renderItem)).data = joinItemsL ts := by
  induction ts with
  | nil => decide
  | cons t ts ih =>
    cases ts with
    | nil => simpa [pyJoin, joinItemsL] using renderItem_data t
    | cons t2 ts2 =>
      have hpp : ("||" : String).data = ['|', '|'] := by decide
      simp only [List.map_cons, pyJoin, joinItemsL] at ih ⊢
      simp [String.data_append, renderItem_data, hpp, List.append_assoc, ih]

theorem renderItemL_shape (t : String × String × String) (X : List Char) :
    renderItemL t ++ X = t.1.data ++ '|' :: (t.2.1.data ++ '|' :: (t.2.2.data ++ X)) := by
  simp [renderItemL, List.append_assoc]

theorem renderItemL_ne_nil (t : String × String × String) : renderItemL t ≠ [] := by
  unfold renderItemL
  intro h
  rcases List.append_eq_nil.mp h with ⟨_, h2⟩
  cases h2

theorem joinItemsL_ne_nil (t : String × String × String)
    (ts : List (String × String × String)) : joinItemsL (t :: ts) ≠ [] := by
  cases ts with
  | nil => exact renderItemL_ne_nil t
  | cons t2 ts2 =>
    unfold joinItemsL
    intro h
    rcases List.append_eq_nil.mp h with ⟨_, h2⟩
    cases h2

theorem joinItemsL_inj : ∀ (ts us : List (String × String × String)),
    (∀ t ∈ ts, tupNoPipe t) → (∀ u ∈ us, tupNoPipe u) →
    joinItemsL ts = joinItemsL us → ts = us := by
  intro ts
  induction ts with
  | nil =>
    intro us _ hus h
    cases us with
    | nil => rfl
    | cons u us' => exact absurd h.symm (joinItemsL_ne_nil u us')
  | cons t ts' ih =>
    intro us hts hus h
    cases us with
    | nil => exact absurd h (joinItemsL_ne_nil t ts')
    | cons u us' =>
      obtain ⟨t1, t21, t22⟩ := t
      obtain ⟨u1, u21, u22⟩ := u
      have htn := hts _ (List.mem_cons_self _ _)
      have hun := hus _ (List.mem_cons_self _ _)
      simp only [tupNoPipe] at htn hun
      obtain ⟨htn1, htn2, htn3⟩ := htn
      obtain ⟨hun1, hun2, hun3⟩ := hun
      cases ts' with
      | nil =>
        cases us' with
        | nil =>
          simp only [joinItemsL, renderItemL, List.append_assoc, List.cons_append] at h
          obtain ⟨e1, h2⟩ := sepSplit_inj _ _ _ _ htn1 hun1 h
          obtain ⟨e2, h3⟩ := sepSplit_inj _ _ _ _ htn2 hun2 h2
          rw [String.ext e1, String.ext e2, String.ext h3]
        | cons u2 us2 =>
          exfalso
          simp only [joinItemsL, renderItemL, List.append_assoc, List.cons_append] at h
          obtain ⟨e1, h2⟩ := sepSplit_inj _ _ _ _ htn1 hun1 h
          obtain ⟨e2, h3⟩ := sepSplit_inj _ _ _ _ htn2 hun2 h2
          have hmem : '|' ∈ t22.data := by
            rw [h3]
            exact List.mem_append_right _ (List.mem_cons_self _ _)
          exact htn3 hmem
      | cons t2 ts2 =>
        cases us' with
        | nil =>
          exfalso
          simp only [joinItemsL, renderItemL, List.append_assoc, List.cons_append] at h
          obtain ⟨e1, h2⟩ := sepSplit_inj _ _ _ _ htn1 hun1 h
          obtain ⟨e2, h3⟩ := sepSplit_inj _ _ _ _ htn2 hun2 h2
          have hmem : '|' ∈ u22.data := by
            rw [← h3]
            exact List.mem_append_right _ (List.mem_cons_self _ _)
          exact hun3 hmem
        | cons u2 us2 =>
          simp only [joinItemsL, renderItemL, List.append_assoc, List.cons_append] at h
          obtain ⟨e1, h2⟩ := sepSplit_inj _ _ _ _ htn1 hun1 h
          obtain ⟨e2, h3⟩ := sepSplit_inj _ _ _ _ htn2 hun2 h2
          obtain ⟨e3, h4⟩ := sepSplit_inj _ _ _ _ htn3 hun3 h3
          have h5 : joinItemsL (t2 :: ts2) = joinItemsL (u2 :: us2) := by
            simpa using h4
          have htail := ih (u2 :: us2)
            (fun q hq => hts q (List.mem_cons_of_mem _ hq))
            (fun q hq => hus q (List.mem_cons_of_mem _ hq)) h5
          rw [String.ext e1, String.ext e2, String.ext e3, htail]

theorem pyJoin_render_inj (ts us : List (String × String × String))
    (hts : ∀ t ∈ ts, tupNoPipe t) (hus : ∀ u ∈ us, tupNoPipe u)
    (h : pyJoin "||" (ts.map renderItem) = pyJoin "||" (us.map renderItem)) : ts = us := by
  refine joinItemsL_inj ts us hts hus ?_
  rw [← pyJoin_render_data, ← pyJoin_render_data, h]

theorem strAppend_cancel_left (p x y : String) (h : p ++ x = p ++ y) : x = y := by
  have hd : (p ++ x).data = (p ++ y).data := by rw [h]
  rw [String.data_append, String.data_append] at hd
  exact String.ext (List.append_cancel_left hd)

/-- **C5** (counterexample): the canonical string for a buttons group contains
only each visible button's label — not its value or price text — so two
buttons groups that differ exactly in a visible choice's underlying value and
price text get identical classifications (hence identical signatures under
any hash of the canonical string).  Moreover even for radio groups the claim
fails on labels/values containing the `|` separator: a choice with label `x`
and value `y|z` and a choice with label `x|y` and value `z` produce the same
signature. -/
theorem signature_buttons_counterexample :
    group_kind_and_signature (fun s => s) btnElA = group_kind_and_signature (fun s => s) btnElB ∧
    btnElA.buttons ≠ btnElB.buttons ∧
    group_kind_and_signature (fun s => s) radElA = group_kind_and_signature (fun s => s) radElB ∧
    radElA.radios ≠ radElB.radios := by
  decide

/-- **C5** (amended): for radio and checkbox groups the canonical string
contains each visible choice's `(label, value, price-text)` triple in DOM
order, and — provided the hash is injective and the extracted triples are
`|`-free — any change to the extracted triples changes the signature; for
buttons groups the canonical string contains only the visible choices'
labels, so the classification is invariant under changes to button values
and price texts. -/
theorem signature_sensitivity_amended :
    (∀ (hsh : String → String), Function.Injective hsh →
      ∀ (el1 el2 : GroupEl) (ros1 ros2 : List RadioOption),
        el1.labelTexts = el2.labelTexts →
        el1.rangeCluster = none → el2.rangeCluster = none →
        el1.radios = some ros1 → el2.radios = some ros2 →
        (∀ t ∈ ros1.filterMap radioTupleOf, tupNoPipe t) →
        (∀ t ∈ ros2.filterMap radioTupleOf, tupNoPipe t) →
        ros1.filterMap radioTupleOf ≠ ros2.filterMap radioTupleOf →
        (group_kind_and_signature hsh el1).2.2 ≠ (group_kind_and_signature hsh el2).2.2) ∧
    (∀ (hsh : String → String), Function.Injective hsh →
      ∀ (el1 el2 : GroupEl) (cos1 cos2 : List CheckboxOption),
        el1.labelTexts = el2.labelTexts →
        el1.rangeCluster = none → el2.rangeCluster = none →
        el1.radios = none → el2.radios = none →
        el1.buttons = none → el2.buttons = none →
        el1.checkboxes = some cos1 → el2.checkboxes = some cos2 →
        (∀ t ∈ cos1.filterMap checkboxTupleOf, tupNoPipe t) →
        (∀ t ∈ cos2.filterMap checkboxTupleOf, tupNoPipe t) →
        cos1.filterMap checkboxTupleOf ≠ cos2.filterMap checkboxTupleOf →
        (group_kind_and_signature hsh el1).2.2 ≠ (group_kind_and_signature hsh el2).2.2) ∧
    (∀ (hsh : String → String) (el1 el2 : GroupEl)
        (bs1 bs2 : List (List ButtonOption)),
        el1.labelTexts = el2.labelTexts →
        el1.rangeCluster = none → el2.rangeCluster = none →
        el1.radios = none → el2.radios = none →
        el1.buttons = some bs1 → el2.buttons = some bs2 →
        buttonItems bs1 = buttonItems bs2 →
        group_kind_and_signature hsh el1 = group_kind_and_signature hsh el2) := by
  refine ⟨?_, ?_, ?_⟩
  · intro hsh hinj el1 el2 ros1 ros2 hlabel hr1 hr2 hs1 hs2 hn1 hn2 hne heq
    simp only [group_kind_and_signature, hr1, hr2, hs1, hs2] at heq
    rw [hlabel] at heq
    have heq2 := hinj heq
    have hJ := strAppend_cancel_left _ _ _ heq2
    exact hne (pyJoin_render_inj _ _ hn1 hn2 (by simpa [radioItems] using hJ))
  · intro hsh hinj el1 el2 cos1 cos2 hlabel hr1 hr2 hra1 hra2 hb1 hb2 hc1 hc2 hn1 hn2 hne heq
    simp only [group_kind_and_signature, hr1, hr2, hra1, hra2, hb1, hb2, hc1, hc2] at heq
    rw [hlabel] at heq
    have heq2 := hinj heq
    have hJ := strAppend_cancel_left _ _ _ heq2
    exact hne (pyJoin_render_inj _ _ hn1 hn2 (by simpa [checkboxItems] using hJ))
  · intro hsh el1 el2 bs1 bs2 hlabel hr1 hr2 hra1 hra2 hb1 hb2 hitems
    simp only [group_kind_and_signature, hr1, hr2, hra1, hra2, hb1, hb2]
    rw [hlabel, hitems]

/-- **C5** (witness): a concrete pipe-free radio group and its copy with one
choice's price text changed get different signatures under the (injective)
identity hash. -/
theorem signature_sensitivity_amended_witness :
    (group_kind_and_signature (fun s => s) radWitA).2.2 ≠
      (group_kind_and_signature (fun s => s) radWitB).2.2 :=
  signature_sensitivity_amended.1 (fun s => s) (fun _ _ h => h) radWitA radWitB _ _
    rfl rfl rfl rfl rfl (by decide) (by decide) (by decide)


theorem insSorted_perm {α : Type} (lt : α → α → Bool) (x : α) (l : List α) :
    (insSorted lt x l).Perm (x :: l) := by
  induction l with
  | nil => exact List.Perm.refl _
  | cons y ys ih =>
    unfold insSorted
    by_cases h : lt x y = true
    · rw [if_pos h]
    · rw [if_neg h]
      exact (List.Perm.cons y ih).trans (List.Perm.swap x y ys)

theorem stableSort_perm {α : Type} (lt : α → α → Bool) (l : List α) :
    (stableSort lt l).Perm l := by
  have key : ∀ (l acc : List α),
      (l.foldl (fun a x => insSorted lt x a) acc).Perm (acc ++ l) := by
    intro l
    induction l with
    | nil => intro acc; simp
    | cons x xs ih =>
      intro acc
      have h2 := ih (insSorted lt x acc)
      have h3 : (insSorted lt x acc ++ xs).Perm ((x :: acc) ++ xs) :=
        (insSorted_perm lt x acc).append_right xs
      have h4 : ((x :: acc) ++ xs).Perm (acc ++ x :: xs) := List.perm_middle.symm
      exact (h2.trans h3).trans h4
  simpa [stableSort] using key l []

theorem insert_one_option_spec (fails : Nat → Bool) (conn : Conn) (sid : Nat)
    (orow : ORow) (pd : Option Nat) :
    (∃ e, insert_one_option fails conn sid orow pd = .error e ∧
      e.committed = conn.committed ∧ e.pending = conn.pending ∧ e.warnings = conn.warnings) ∨
    insert_one_option fails conn sid orow pd = .ok ({ conn with
      pending := { conn.pending with
        options := conn.pending.options ++ [(conn.nextOptionId, optRecOf sid pd orow)] },
      nextOptionId := conn.nextOptionId + 1,
      insertCount := conn.insertCount + 1,
      ops := conn.ops ++ [DbOp.insertOption (optRecOf sid pd orow)] }, conn.nextOptionId) := by
  by_cases h : fails conn.insertCount = true
  · left
    refine ⟨{ conn with insertCount := conn.insertCount + 1, ops := conn.ops ++ [DbOp.insertOption (optRecOf sid pd orow)] }, ?_, rfl, rfl, rfl⟩
    simp only [insert_one_option]
    rw [if_pos h]
  · right
    simp only [insert_one_option]
    rw [if_neg h]

theorem optKeyOf_optRecOf (sid : Nat) (pd : Option Nat) (o : ORow) :
    optKeyOf (optRecOf sid pd o) = optKeyORow o := rfl

theorem insert_service_spec (fails : Nat → Bool) (conn : Conn) (row : SRow) :
    (∀ e, insert_service fails conn row = .error e →
      e.committed = conn.committed ∧ e.pending = conn.pending ∧ e.warnings = conn.warnings) ∧
    (∀ c sid, insert_service fails conn row = .ok (c, sid) →
      c.committed = conn.committed ∧
      c.pending.options = conn.pending.options ∧
      c.warnings = conn.warnings ∧
      (∃ t, c.pending.services = conn.pending.services ++ t) ∧
      (∃ rec_, (sid, rec_) ∈ c.committed.services ++ c.pending.services)) := by
  constructor
  · intro e h
    simp only [insert_service] at h
    split at h
    · split at h
      · cases h
      · split at h
        · cases h
          exact ⟨rfl, rfl, rfl⟩
        · cases h
    · split at h
      · cases h
        exact ⟨rfl, rfl, rfl⟩
      · cases h
  · intro c sid h
    simp only [insert_service] at h
    split at h
    · rename_i hc
      split at h
      · rename_i sid0 hlk
        cases h
        refine ⟨rfl, rfl, rfl, ⟨[], by simp⟩, ?_⟩
        simp only [lookupService] at hlk
        rcases hn : to_nullable_str row.name with _ | n
        · exact absurd hn hc.2
        · rw [hn] at hlk
          obtain ⟨p, hfind, hp1⟩ := Option.map_eq_some'.mp hlk
          have hm := List.mem_of_find?_eq_some hfind
          exact ⟨p.2, by rw [← hp1]; exact hm⟩
      · split at h
        · cases h
        · cases h
          refine ⟨rfl, rfl, rfl, ⟨_, rfl⟩, ?_⟩
          exact ⟨_, List.mem_append_right _ (List.mem_append_right _ (List.mem_singleton.mpr rfl))⟩
    · split at h
      · cases h
      · cases h
        refine ⟨rfl, rfl, rfl, ⟨_, rfl⟩, ?_⟩
        exact ⟨_, List.mem_append_right _ (List.mem_append_right _ (List.mem_singleton.mpr rfl))⟩

theorem dictLookup_not_mem_keys {κ ν : Type} [DecidableEq κ] (m : List (κ × ν)) (k : κ)
    (h : k ∉ m.map (fun q => q.1)) : dictLookup m k = none := by
  rcases hl : dictLookup m k with _ | v
  · rfl
  · exact absurd (List.mem_map.mpr ⟨(k, v), dictLookup_mem m k v hl, rfl⟩) h

theorem keys_dictInsert {κ ν : Type} [DecidableEq κ] (m : List (κ × ν)) (k k' : κ) (v : ν) :
    k' ∈ (dictInsert m k v).map (fun q => q.1) → k' ∈ m.map (fun q => q.1) ∨ k' = k := by
  intro h
  rcases List.mem_map.mp h with ⟨p, hp, he⟩
  rcases mem_dictInsert m k p.1 v p.2 hp with h1 | h2
  · right
    rw [← he]
    exact congrArg Prod.fst h1
  · exact Or.inl (List.mem_map.mpr ⟨p, h2, he⟩)

theorem insertParents_spec (fails : Nat → Bool) (sid : Nat) :
    ∀ (l : List ORow) (conn : Conn) (m : List (String × Nat)),
    (∀ e, insertParents fails sid conn m l = .error e → e.committed = conn.committed) ∧
    (∀ conn' m', insertParents fails sid conn m l = .ok (conn', m') →
      conn'.committed = conn.committed ∧
      conn'.pending.services = conn.pending.services ∧
      conn'.warnings = conn.warnings ∧
      (∃ t, conn'.pending.options = conn.pending.options ++ t ∧
        t.map (fun q => optKeyOf q.2) = l.map optKeyORow) ∧
      (∀ k, k ∈ m'.map (fun q => q.1) → k ∈ m.map (fun q => q.1) ∨ k ∈ l.map ORow.option_id)) := by
  intro l
  induction l with
  | nil =>
    intro conn m
    constructor
    · intro e h
      cases h
    · intro conn' m' h
      cases h
      exact ⟨rfl, rfl, rfl, ⟨[], by simp, rfl⟩, fun k hk => Or.inl hk⟩
  | cons p rest ih =>
    intro conn m
    constructor
    · intro e h
      rcases insert_one_option_spec fails conn sid p none with ⟨e1, he1, hc1, _, _⟩ | hok
      · simp only [insertParents, he1] at h
        cases h
        exact hc1
      · simp only [insertParents, hok] at h
        exact Eq.trans ((ih _ _).1 e h) rfl
    · intro conn' m' h
      rcases insert_one_option_spec fails conn sid p none with ⟨e1, he1, _, _, _⟩ | hok
      · simp only [insertParents, he1] at h
        cases h
      · simp only [insertParents, hok] at h
        obtain ⟨hcom, hsvc, hwarn, ⟨t, hopt, hmap⟩, hkeys⟩ := (ih _ _).2 conn' m' h
        refine ⟨hcom, hsvc, hwarn,
          ⟨(conn.nextOptionId, optRecOf sid none p) :: t, ?_, ?_⟩, ?_⟩
        · rw [hopt]
          simp
        · simp [hmap, optKeyOf_optRecOf]
        · intro k hk
          rcases hkeys k hk with h1 | h2
          · rcases keys_dictInsert m p.option_id k conn.nextOptionId h1 with h3 | h4
            · exact Or.inl h3
            · exact Or.inr (by rw [h4]; exact List.mem_cons_self _ _)
          · exact Or.inr (List.mem_cons_of_mem _ h2)

theorem insertChildren_cons_none (fails : Nat → Bool) (sid : Nat) (conn : Conn)
    (m : List (String × Nat)) (c : ORow) (rest : List ORow)
    (hfd : dictLookup m (pyStrip c.parent_option_id) = none) :
    insertChildren fails sid conn m (c :: rest) =
      match insert_one_option fails { conn with warnings := conn.warnings ++
          ["[WARN] Missing parent for option_id=" ++ c.option_id ++ " (parent=" ++
            pyStrip c.parent_option_id ++ ")"] } sid c none with
      | .error e => .error e
      | .ok (conn2, nid) => insertChildren fails sid conn2 (dictInsert m c.option_id nid) rest := by
  simp only [insertChildren, hfd, eq_self_iff_true, if_true]

theorem insertChildren_cons_some0 (fails : Nat → Bool) (sid : Nat) (conn : Conn)
    (m : List (String × Nat)) (c : ORow) (rest : List ORow)
    (hfd : dictLookup m (pyStrip c.parent_option_id) = some 0) :
    insertChildren fails sid conn m (c :: rest) =
      match insert_one_option fails { conn with warnings := conn.warnings ++
          ["[WARN] Missing parent for option_id=" ++ c.option_id ++ " (parent=" ++
            pyStrip c.parent_option_id ++ ")"] } sid c none with
      | .error e => .error e
      | .ok (conn2, nid) => insertChildren fails sid conn2 (dictInsert m c.option_id nid) rest := by
  simp only [insertChildren, hfd, beq_self_eq_true, eq_self_iff_true, if_true]

theorem insertChildren_cons_someNZ (fails : Nat → Bool) (sid : Nat) (conn : Conn)
    (m : List (String × Nat)) (c : ORow) (rest : List ORow) (k : Nat)
    (hfd : dictLookup m (pyStrip c.parent_option_id) = some k) (hk : k ≠ 0) :
    insertChildren fails sid conn m (c :: rest) =
      match insert_one_option fails conn sid c (some k) with
      | .error e => .error e
      | .ok (conn2, nid) => insertChildren fails sid conn2 (dictInsert m c.option_id nid) rest := by
  have hkb : (k == 0) = false := by
    simp [hk]
  simp only [insertChildren, hfd, hkb, Bool.false_eq_true, if_false]

theorem icspec_miss (fails : Nat → Bool) (sid : Nat) (c : ORow) (rest : List ORow)
    (ih : ∀ conn m, ICSpec fails sid rest conn m) (conn : Conn) (m : List (String × Nat))
    (hstep : insertChildren fails sid conn m (c :: rest) =
      match insert_one_option fails { conn with warnings := conn.warnings ++
          ["[WARN] Missing parent for option_id=" ++ c.option_id ++ " (parent=" ++
            pyStrip c.parent_option_id ++ ")"] } sid c none with
      | .error e => .error e
      | .ok (conn2, nid) => insertChildren fails sid conn2 (dictInsert m c.option_id nid) rest) :
    ICSpec fails sid (c :: rest) conn m := by
  constructor
  · intro e h
    rw [hstep] at h
    rcases insert_one_option_spec fails { conn with warnings := conn.warnings ++
        ["[WARN] Missing parent for option_id=" ++ c.option_id ++ " (parent=" ++
          pyStrip c.parent_option_id ++ ")"] } sid c none with ⟨e1, he1, hc1, _, _⟩ | hok
    · simp only [he1] at h
      cases h
      exact hc1
    · simp only [hok] at h
      exact Eq.trans ((ih _ _).1 e h) rfl
  · intro conn' m' h
    rw [hstep] at h
    rcases insert_one_option_spec fails { conn with warnings := conn.warnings ++
        ["[WARN] Missing parent for option_id=" ++ c.option_id ++ " (parent=" ++
          pyStrip c.parent_option_id ++ ")"] } sid c none with ⟨e1, he1, _, _, _⟩ | hok
    · simp only [he1] at h
      cases h
    · simp only [hok] at h
      obtain ⟨hcom, hsvc, ⟨w, hwarn⟩, ⟨t, hopt, hmap⟩, hgap⟩ := (ih _ _).2 conn' m' h
      refine ⟨Eq.trans hcom rfl, Eq.trans hsvc rfl,
        ⟨("[WARN] Missing parent for option_id=" ++ c.option_id ++ " (parent=" ++
          pyStrip c.parent_option_id ++ ")") :: w, by simp [hwarn]⟩,
        ⟨(conn.nextOptionId, optRecOf sid none c) :: t, by simp [hopt], by simp [hmap, optKeyOf_optRecOf]⟩, ?_⟩
      intro c' hc' hnm hnl
      rcases List.mem_cons.mp hc' with rfl | hmem
      · constructor
        · refine ⟨conn.nextOptionId, ?_⟩
          rw [hopt]
          exact List.mem_append_left _ (List.mem_append_right _ (List.mem_singleton.mpr rfl))
        · rw [hwarn]
          exact List.mem_append_left _ (List.mem_append_right _ (List.mem_singleton.mpr rfl))
      · refine hgap c' hmem ?_ ?_
        · intro contra
          rcases keys_dictInsert m c.option_id (pyStrip c'.parent_option_id)
              conn.nextOptionId contra with h1 | h2
          · exact hnm h1
          · exact hnl (by rw [h2]; simp)
        · intro contra
          exact hnl (List.mem_cons_of_mem _ contra)

theorem icspec_nz (fails : Nat → Bool) (sid : Nat) (c : ORow) (rest : List ORow)
    (ih : ∀ conn m, ICSpec fails sid rest conn m) (conn : Conn) (m : List (String × Nat))
    (k : Nat) (hfd : dictLookup m (pyStrip c.parent_option_id) = some k)
    (hstep : insertChildren fails sid conn m (c :: rest) =
      match insert_one_option fails conn sid c (some k) with
      | .error e => .error e
      | .ok (conn2, nid) => insertChildren fails sid conn2 (dictInsert m c.option_id nid) rest) :
    ICSpec fails sid (c :: rest) conn m := by
  constructor
  · intro e h
    rw [hstep] at h
    rcases insert_one_option_spec fails conn sid c (some k) with ⟨e1, he1, hc1, _, _⟩ | hok
    · simp only [he1] at h
      cases h
      exact hc1
    · simp only [hok] at h
      exact Eq.trans ((ih _ _).1 e h) rfl
  · intro conn' m' h
    rw [hstep] at h
    rcases insert_one_option_spec fails conn sid c (some k) with ⟨e1, he1, _, _, _⟩ | hok
    · simp only [he1] at h
      cases h
    · simp only [hok] at h
      obtain ⟨hcom, hsvc, ⟨w, hwarn⟩, ⟨t, hopt, hmap⟩, hgap⟩ := (ih _ _).2 conn' m' h
      refine ⟨Eq.trans hcom rfl, Eq.trans hsvc rfl, ⟨w, by simp [hwarn]⟩,
        ⟨(conn.nextOptionId, optRecOf sid (some k) c) :: t, by simp [hopt],
          by simp [hmap, optKeyOf_optRecOf]⟩, ?_⟩
      intro c' hc' hnm hnl
      rcases List.mem_cons.mp hc' with rfl | hmem
      · have hnone := dictLookup_not_mem_keys m _ hnm
        rw [hfd] at hnone
        cases hnone
      · refine hgap c' hmem ?_ ?_
        · intro contra
          rcases keys_dictInsert m c.option_id (pyStrip c'.parent_option_id)
              conn.nextOptionId contra with h1 | h2
          · exact hnm h1
          · exact hnl (by rw [h2]; simp)
        · intro contra
          exact hnl (List.mem_cons_of_mem _ contra)

theorem insertChildren_spec (fails : Nat → Bool) (sid : Nat) :
    ∀ (l : List ORow) (conn : Conn) (m : List (String × Nat)), ICSpec fails sid l conn m := by
  intro l
  induction l with
  | nil =>
    intro conn m
    constructor
    · intro e h
      cases h
    · intro conn' m' h
      cases h
      refine ⟨rfl, rfl, ⟨[], by simp⟩, ⟨[], by simp, rfl⟩, ?_⟩
      intro c hc
      exact absurd hc (List.not_mem_nil c)
  | cons c rest ih =>
    intro conn m
    rcases hfd : dictLookup m (pyStrip c.parent_option_id) with _ | k
    · exact icspec_miss fails sid c rest ih conn m
        (insertChildren_cons_none fails sid conn m c rest hfd)
    · by_cases hk : k = 0
      · subst hk
        exact icspec_miss fails sid c rest ih conn m
          (insertChildren_cons_some0 fails sid conn m c rest hfd)
      · exact icspec_nz fails sid c rest ih conn m k hfd
          (insertChildren_cons_someNZ fails sid conn m c rest k hfd hk)

theorem import_service_spec (fails : Nat → Bool) (conn : Conn) (srow : SRow)
    (opts : List ORow) :
    (∀ e, import_service fails conn srow opts = .error e → e.committed = conn.committed) ∧
    (∀ conn' sid, import_service fails conn srow opts = .ok (conn', sid) →
      (∃ t, conn'.committed.services = conn.committed.services ++ t) ∧
      (∃ t, conn'.committed.options = conn.committed.options ++ t ∧
        (t.map (fun q => optKeyOf q.2)).Perm
          ((opts.filter fun o => o.service_id == pyStrip srow.service_id).map optKeyORow)) ∧
      (∃ rec_, (sid, rec_) ∈ conn'.committed.services) ∧
      (∀ c, c ∈ opts.filter (fun o => o.service_id == pyStrip srow.service_id) →
        is_parent_row c = false →
        pyStrip c.parent_option_id ∉
          (opts.filter fun o => o.service_id == pyStrip srow.service_id).map ORow.option_id →
        (∃ id, (id, optRecOf sid none c) ∈ conn'.committed.options) ∧
        ("[WARN] Missing parent for option_id=" ++ c.option_id ++ " (parent=" ++
          pyStrip c.parent_option_id ++ ")") ∈ conn'.warnings)) := by
  have hsvc := insert_service_spec fails (start_transaction conn) srow
  constructor
  · intro e h
    simp only [import_service] at h
    split at h
    · rename_i e1 hs
      cases h
      exact (hsvc.1 _ hs).1
    · rename_i conn1 dbsid hs
      split at h
      · rename_i e2 hp
        cases h
        exact Eq.trans ((insertParents_spec fails dbsid _ _ _).1 _ hp)
          (Eq.trans (hsvc.2 conn1 dbsid hs).1 rfl)
      · rename_i conn2 idm hp
        split at h
        · rename_i e3 hc
          cases h
          exact Eq.trans ((insertChildren_spec fails dbsid _ _ _).1 _ hc)
            (Eq.trans ((insertParents_spec fails dbsid _ _ _).2 conn2 idm hp).1
              (Eq.trans (hsvc.2 conn1 dbsid hs).1 rfl))
        · cases h
  · intro conn' sid h
    simp only [import_service] at h
    split at h
    · cases h
    · rename_i conn1 dbsid hs
      split at h
      · cases h
      · rename_i conn2 idm hp
        split at h
        · cases h
        · rename_i conn3 idm2 hc
          cases h
          obtain ⟨hcc, hpo, hww, ⟨ts, hsvcs⟩, ⟨rec0, hrec⟩⟩ := hsvc.2 conn1 sid hs
          obtain ⟨hc0, hs0, hw0, ⟨t1, ho1, hm1⟩, hkeys⟩ :=
            (insertParents_spec fails _ _ _ _).2 conn2 idm hp
          obtain ⟨hc1, hp1, ⟨w2, hw2⟩, ⟨t2, ho2, hm2⟩, hgap⟩ :=
            (insertChildren_spec fails _ _ _ _).2 conn3 idm2 hc
          have hpo' : conn1.pending.options = ([] : List (Nat × OptRec)) := hpo
          have hopts3 : conn3.pending.options = t1 ++ t2 := by
            rw [ho2, ho1, hpo']
            simp
          refine ⟨?_, ?_, ?_, ?_⟩
          · refine ⟨conn3.pending.services, ?_⟩
            show conn3.committed.services ++ conn3.pending.services =
              conn.committed.services ++ conn3.pending.services
            rw [hc1, hc0, hcc]
            rfl
          · refine ⟨conn3.pending.options, ?_, ?_⟩
            · show conn3.committed.options ++ conn3.pending.options =
                conn.committed.options ++ conn3.pending.options
              rw [hc1, hc0, hcc]
              rfl
            · rw [hopts3, List.map_append, hm1, hm2]
              refine List.Perm.trans
                (List.Perm.append ((stableSort_perm parentLt _).map optKeyORow)
                  ((stableSort_perm childLt _).map optKeyORow)) ?_
              rw [← List.map_append]
              exact (List.filter_append_perm (fun o => is_parent_row o) _).map optKeyORow
          · refine ⟨rec0, ?_⟩
            show (sid, rec0) ∈ conn3.committed.services ++ conn3.pending.services
            rw [hc1, hc0, hp1, hs0]
            exact hrec
          · intro c hcf hpar hnotin
            have hcNP : c ∈ (opts.filter fun o => o.service_id == pyStrip srow.service_id).filter
                (fun o => !(is_parent_row o)) :=
              List.mem_filter.mpr ⟨hcf, by simp [hpar]⟩
            have hcS : c ∈ stableSort childLt
                ((opts.filter fun o => o.service_id == pyStrip srow.service_id).filter
                  (fun o => !(is_parent_row o))) :=
              (stableSort_perm childLt _).mem_iff.mpr hcNP
            have hpre1 : pyStrip c.parent_option_id ∉ idm.map (fun q => q.1) := by
              intro hin
              rcases hkeys _ hin with h0 | hpk
              · simp at h0
              · rcases List.mem_map.mp hpk with ⟨o, ho, hoid⟩
                have hof : o ∈ (opts.filter fun o => o.service_id == pyStrip srow.service_id) :=
                  List.mem_of_mem_filter ((stableSort_perm parentLt _).mem_iff.mp ho)
                exact hnotin (List.mem_map.mpr ⟨o, hof, hoid⟩)
            have hpre2 : pyStrip c.parent_option_id ∉
                (stableSort childLt ((opts.filter fun o => o.service_id == pyStrip srow.service_id).filter
                  (fun o => !(is_parent_row o)))).map ORow.option_id := by
              intro hin
              rcases List.mem_map.mp hin with ⟨o, ho, hoid⟩
              have hof : o ∈ (opts.filter fun o => o.service_id == pyStrip srow.service_id) :=
                List.mem_of_mem_filter ((stableSort_perm childLt _).mem_iff.mp ho)
              exact hnotin (List.mem_map.mpr ⟨o, hof, hoid⟩)
            obtain ⟨⟨id0, hpend⟩, hwmem⟩ := hgap c hcS hpre1 hpre2
            exact ⟨⟨id0, List.mem_append_right _ hpend⟩, hwmem⟩

theorem insert_one_option_nofail (conn : Conn) (sid : Nat) (orow : ORow) (pd : Option Nat) :
    insert_one_option (fun _ => false) conn sid orow pd = .ok ({ conn with
      pending := { conn.pending with
        options := conn.pending.options ++ [(conn.nextOptionId, optRecOf sid pd orow)] },
      nextOptionId := conn.nextOptionId + 1,
      insertCount := conn.insertCount + 1,
      ops := conn.ops ++ [DbOp.insertOption (optRecOf sid pd orow)] }, conn.nextOptionId) := by
  simp only [insert_one_option, Bool.false_eq_true, if_false]

theorem insertParents_nofail (sid : Nat) :
    ∀ (l : List ORow) (conn : Conn) (m : List (String × Nat)),
      ∃ r, insertParents (fun _ => false) sid conn m l = .ok r := by
  intro l
  induction l with
  | nil =>
    intro conn m
    exact ⟨(conn, m), rfl⟩
  | cons p rest ih =>
    intro conn m
    simp only [insertParents, insert_one_option_nofail]
    exact ih _ _

theorem insertChildren_nofail (sid : Nat) :
    ∀ (l : List ORow) (conn : Conn) (m : List (String × Nat)),
      ∃ r, insertChildren (fun _ => false) sid conn m l = .ok r := by
  intro l
  induction l with
  | nil =>
    intro conn m
    exact ⟨(conn, m), rfl⟩
  | cons c rest ih =>
    intro conn m
    rcases hfd : dictLookup m (pyStrip c.parent_option_id) with _ | k
    · rw [insertChildren_cons_none (fun _ => false) sid conn m c rest hfd]
      simp only [insert_one_option_nofail]
      exact ih _ _
    · by_cases hk : k = 0
      · subst hk
        rw [insertChildren_cons_some0 (fun _ => false) sid conn m c rest hfd]
        simp only [insert_one_option_nofail]
        exact ih _ _
      · rw [insertChildren_cons_someNZ (fun _ => false) sid conn m c rest k hfd hk]
        simp only [insert_one_option_nofail]
        exact ih _ _

theorem insert_service_nofail (conn : Conn) (row : SRow) :
    ∃ r, insert_service (fun _ => false) conn row = .ok r := by
  simp only [insert_service, Bool.false_eq_true, if_false]
  split
  · split
    · exact ⟨_, rfl⟩
    · exact ⟨_, rfl⟩
  · exact ⟨_, rfl⟩

theorem import_service_nofail (conn : Conn) (srow : SRow) (opts : List ORow) :
    ∃ r, import_service (fun _ => false) conn srow opts = .ok r := by
  obtain ⟨⟨conn1, dbsid⟩, hs⟩ := insert_service_nofail (start_transaction conn) srow
  obtain ⟨⟨conn2, idm⟩, hp⟩ := insertParents_nofail dbsid
    (stableSort parentLt ((opts.filter fun o => o.service_id == pyStrip srow.service_id).filter
      (fun o => is_parent_row o))) conn1 []
  obtain ⟨⟨conn3, idm2⟩, hc⟩ := insertChildren_nofail dbsid
    (stableSort childLt ((opts.filter fun o => o.service_id == pyStrip srow.service_id).filter
      (fun o => !(is_parent_row o)))) conn2 idm
  refine ⟨(commitTxn conn3, dbsid), ?_⟩
  simp only [import_service, hs, hp, hc]

theorem importLoop_monotone (fails : Nat → Bool) (opts : List ORow) :
    ∀ (ss : List SRow) (conn : Conn),
      (∃ t, (importLoop fails opts conn ss).1.committed.services =
        conn.committed.services ++ t) ∧
      (∃ t, (importLoop fails opts conn ss).1.committed.options =
        conn.committed.options ++ t) := by
  intro ss
  induction ss with
  | nil =>
    intro conn
    exact ⟨⟨[], by simp [importLoop]⟩, ⟨[], by simp [importLoop]⟩⟩
  | cons s rest ih =>
    intro conn
    rcases hres : import_service fails conn s opts with e | ⟨conn1, sid⟩
    · have hc := (import_service_spec fails conn s opts).1 e hres
      exact ⟨⟨[], by simp [importLoop, hres, rollbackTxn, hc]⟩,
        ⟨[], by simp [importLoop, hres, rollbackTxn, hc]⟩⟩
    · obtain ⟨⟨ts, hts⟩, ⟨t2, hto, _⟩, _, _⟩ := (import_service_spec fails conn s opts).2 conn1 sid hres
      obtain ⟨⟨us, hus⟩, ⟨uo, huo⟩⟩ := ih conn1
      constructor
      · refine ⟨ts ++ us, ?_⟩
        simp only [importLoop, hres]
        rw [hus, hts, List.append_assoc]
      · refine ⟨t2 ++ uo, ?_⟩
        simp only [importLoop, hres]
        rw [huo, hto, List.append_assoc]

/-- **C1** Per-service atomic import: an insert failure while importing a
service leaves the committed store exactly as it was after the rollback (no
row of the failed service, and every previously committed row, intact); a
fully successful service import commits the service row and exactly its
option rows (their persisted key columns a permutation of the service's CSV
rows); and the service loop only ever appends to the committed store, so
earlier services' rows survive later iterations. -/
theorem import_atomic_per_service :
    (∀ (fails : Nat → Bool) (conn : Conn) (srow : SRow) (opts : List ORow) (e : Conn),
      import_service fails conn srow opts = .error e →
        (rollbackTxn e).committed = conn.committed) ∧
    (∀ (fails : Nat → Bool) (conn : Conn) (srow : SRow) (opts : List ORow)
        (conn' : Conn) (sid : Nat),
      import_service fails conn srow opts = .ok (conn', sid) →
        (∃ t, conn'.committed.services = conn.committed.services ++ t) ∧
        (∃ rec_, (sid, rec_) ∈ conn'.committed.services) ∧
        (∃ t, conn'.committed.options = conn.committed.options ++ t ∧
          (t.map (fun q => optKeyOf q.2)).Perm
            ((opts.filter fun o => o.service_id == pyStrip srow.service_id).map optKeyORow))) ∧
    (∀ (fails : Nat → Bool) (conn : Conn) (opts : List ORow) (ss : List SRow),
      (∃ t, (importLoop fails opts conn ss).1.committed.services =
        conn.committed.services ++ t) ∧
      (∃ t, (importLoop fails opts conn ss).1.committed.options =
        conn.committed.options ++ t)) := by
  refine ⟨?_, ?_, ?_⟩
  · intro fails conn srow opts e h
    exact (import_service_spec fails conn srow opts).1 e h
  · intro fails conn srow opts conn' sid h
    obtain ⟨hsvc, hopt, hmem, _⟩ := (import_service_spec fails conn srow opts).2 conn' sid h
    exact ⟨hsvc, hmem, hopt⟩
  · intro fails conn opts ss
    exact importLoop_monotone fails opts ss conn

theorem import_atomic_per_service_witness :
    (rollbackTxn (resultConn (import_service (fun n => n == 2) connW srowW optsW))).committed =
      connW.committed ∧
    (∃ rec_, (1, rec_) ∈
      (resultConn (import_service (fun _ => false) connW srowW optsW)).committed.services) := by
  constructor
  · exact import_atomic_per_service.1 (fun n => n == 2) connW srowW optsW
      (resultConn (import_service (fun n => n == 2) connW srowW optsW)) (by rfl)
  · exact (import_atomic_per_service.2.1 (fun _ => false) connW srowW optsW
      (resultConn (import_service (fun _ => false) connW srowW optsW)) 1 (by rfl)).2.1

/-- **C9** Import referential gap handling: with no insert failing, importing a
service always commits; every option row of the service reaches the committed
store; and each child row whose stripped parent reference matches no
`option_id` of the service's batch (hence is absent from the id map at lookup
time) is persisted with a null `parent_option_id` and a
`[WARN] Missing parent ...` diagnostic is recorded, without aborting the
transaction. -/
theorem import_referential_gap (conn : Conn) (srow : SRow) (opts : List ORow) :
    ∃ conn' sid, import_service (fun _ => false) conn srow opts = .ok (conn', sid) ∧
      (∃ t, conn'.committed.options = conn.committed.options ++ t ∧
        (t.map (fun q => optKeyOf q.2)).Perm
          ((opts.filter fun o => o.service_id == pyStrip srow.service_id).map optKeyORow)) ∧
      (∀ c, c ∈ opts.filter (fun o => o.service_id == pyStrip srow.service_id) →
        is_parent_row c = false →
        pyStrip c.parent_option_id ∉
          (opts.filter fun o => o.service_id == pyStrip srow.service_id).map ORow.option_id →
        (∃ id, (id, optRecOf sid none c) ∈ conn'.committed.options) ∧
        ("[WARN] Missing parent for option_id=" ++ c.option_id ++ " (parent=" ++
          pyStrip c.parent_option_id ++ ")") ∈ conn'.warnings) := by
  obtain ⟨⟨conn', sid⟩, hok⟩ := import_service_nofail conn srow opts
  obtain ⟨_, hopts, _, hgap⟩ :=
    (import_service_spec (fun _ => false) conn srow opts).2 conn' sid hok
  exact ⟨conn', sid, hok, hopts, hgap⟩

theorem import_referential_gap_witness :
    (∃ id, (id, optRecOf 1 none (orowW "3" "9" "radio" "g" "3")) ∈
      (resultConn (import_service (fun _ => false) connW srowW optsW)).committed.options) ∧
    ("[WARN] Missing parent for option_id=" ++ (orowW "3" "9" "radio" "g" "3").option_id ++
      " (parent=" ++ pyStrip (orowW "3" "9" "radio" "g" "3").parent_option_id ++ ")") ∈
      (resultConn (import_service (fun _ => false) connW srowW optsW)).warnings := by
  obtain ⟨conn', sid, hok, _, hgap⟩ := import_referential_gap connW srowW optsW
  have hval : import_service (fun _ => false) connW srowW optsW =
      .ok (resultConn (import_service (fun _ => false) connW srowW optsW), 1) := by rfl
  rw [hok] at hval
  injection hval with hpair
  injection hpair with hconn hsid
  subst hsid
  rw [hok]
  exact hgap (orowW "3" "9" "radio" "g" "3") (by decide) (by decide) (by decide)
